import Mathlib

/-
Verification of the generalized type-folding engine of
`src/librustc/middle/ty_fold.rs`.

The source defines a pair of traits: `TypeFoldable` (every traversable node
can fold itself through a folder) and `TypeFolder` (one overridable hook per
node kind, each hook defaulting to a structural `super_fold_*` recursor).
We embed the data model as mutually inductive Lean types and the folding
protocol as mutually recursive Lean functions.

A Rust folder is a `&mut` object: hooks may read and update folder-local
state (for example `RegionFolder::within_binder_ids`).  We model this by
threading an explicit state of type `σ` through every fold function, so a
hook has type `X → σ → X × σ`.

A folder is modelled by the `Folder` structure.  Every `TypeFolder` hook
whose default is a structural recursion is an `Option` field: `none` means
"left at the default" and `some h` is an override (no override in this crate
re-enters its own structural default for these hooks).  Two exceptions,
mirroring the source: `fold_region`, whose default is the identity, is a
total function field; and `fold_ty`, whose overrides in this crate
(`RegionFolder`, `BottomUpFolder`) all wrap *around* `super_fold_ty`, is
represented by the pair `fold_ty_pre` (state adjustment on entry, e.g.
pushing a binder id) and `fold_ty_post` (post-transform of the rebuilt node
plus state restoration on exit); the default `fold_ty` is the pair of
trivial functions, which makes the dispatched `fold_ty` equal to
`super_fold_ty` exactly as in the source.

Interning (`ty::mk_t` / `ty::get`) is modelled structurally: `Ty` is a
single-constructor wrapper around `Sty`, so structural equality of terms
coincides with equality and the type context carries no information (it is
an empty structure).  Types that only appear in `middle/subst.rs` or
`middle/ty.rs` (which are not part of the excerpt) are modelled from the
spec and say so in their doc comments.
-/

set_option autoImplicit false

/-- Mutability of a pointer or reference (`ast::Mutability`). -/
inductive Mutability where
  | MutImmutable
  | MutMutable
deriving DecidableEq

/-- Modelled from the spec: the parameter spaces of `subst::ParamSpace`
(`middle/subst.rs` is not part of the excerpt).  A substitution is
partitioned into a type-parameter space, a self-type space and a
function-local space. -/
inductive ParamSpace where
  | TypeSpace
  | SelfSpace
  | FnSpace
deriving DecidableEq

/-- A bound-region name (`ty::BoundRegion`).  Its internal structure is
never inspected by the folding engine, so it is modelled as a bare
identifier. -/
abbrev BoundRegion := Nat

/-- Modelled from the spec: `ty::Region` (`middle/ty.rs` is not part of the
excerpt).  A region is static, early-bound (tied to a generic declaration),
late-bound (tied to a function/closure binder id), free (tied to a lexical
scope), scope-tied, or an inference placeholder. -/
inductive Region where
  | ReEarlyBound (param_id : Nat) (space : ParamSpace) (index : Nat) (name : Nat)
  | ReLateBound (binder_id : Nat) (br : BoundRegion)
  | ReFree (scope_id : Nat) (br : BoundRegion)
  | ReScope (node_id : Nat)
  | ReStatic
  | ReInfer (vid : Nat)
deriving DecidableEq

/-- Modelled from the spec: `ty::BuiltinBounds` is a set of builtin-bound
flags; its contents are never inspected by the folding engine. -/
structure BuiltinBounds where
  bound_send : Bool
  bound_sized : Bool
  bound_copy : Bool
  bound_sync : Bool
deriving DecidableEq

/-- `ty::ExistentialBounds`: the bounds of a trait-object type. -/
structure ExistentialBounds where
  region_bound : Region
  builtin_bounds : BuiltinBounds
deriving DecidableEq

/-- `ty::TraitStore`: how a (boxed) closure captures its environment. -/
inductive TraitStore where
  | UniqTraitStore
  | RegionTraitStore (r : Region) (m : Mutability)
deriving DecidableEq

/-- Modelled from the spec: `subst::VecPerParamSpace` (`middle/subst.rs` is
not part of the excerpt): a per-space partitioned vector, one ordered
sequence per parameter space. -/
structure VecPerParamSpace (α : Type) where
  types : List α
  selfs : List α
  fns : List α
deriving DecidableEq

/-- Modelled from the spec: `subst::RegionSubsts`: the region component of a
substitution is either fully erased or a per-space sequence of regions. -/
inductive RegionSubsts where
  | ErasedRegions
  | NonerasedRegions (rs : VecPerParamSpace Region)
deriving DecidableEq

/-- `std::rc::Rc`: a shared-ownership box; folding it rebuilds the box
around the folded pointee. -/
structure Rc (α : Type) where
  val : α
deriving DecidableEq

/-- The type context `ty::ctxt`.  It is only used by the engine to re-intern
rebuilt terms; interning is modelled structurally, so the context carries no
information. -/
structure Ctxt where
deriving DecidableEq

/-- A source position (`codemap::Span`), carried for diagnostics only. -/
abbrev Span := Nat

mutual

/-- An interned type term (`Ty`).  `Ty.mk` plays the role of `ty::mk_t`
(interning a structural `sty` value) and matching on it the role of
`ty::get`. -/
inductive Ty where
  | mk (sty : Sty)

/-- The tagged union of type kinds (`ty::sty`). -/
inductive Sty where
  | ty_nil
  | ty_bot
  | ty_bool
  | ty_char
  | ty_int (k : Nat)
  | ty_uint (k : Nat)
  | ty_float (k : Nat)
  | ty_str
  | ty_uniq (t : Ty)
  | ty_vec (t : Ty) (sz : Option Nat)
  | ty_ptr (tm : Mt)
  | ty_rptr (r : Region) (tm : Mt)
  | ty_bare_fn (f : BareFnTy)
  | ty_closure (f : ClosureTy)
  | ty_trait (def_id : Nat) (substs : Substs) (bounds : ExistentialBounds)
  | ty_struct (def_id : Nat) (substs : Substs)
  | ty_unboxed_closure (def_id : Nat) (r : Region)
  | ty_enum (def_id : Nat) (substs : Substs)
  | ty_tup (ts : TyList)
  | ty_param (space : ParamSpace) (idx : Nat) (def_id : Nat)
  | ty_open (t : Ty)
  | ty_infer (v : Nat)
  | ty_err

/-- `ty::mt`: a type together with a mutability. -/
inductive Mt where
  | mk (ty : Ty) (mutbl : Mutability)

/-- `ty::FnSig`: a function signature with its binder id. -/
inductive FnSig where
  | mk (binder_id : Nat) (inputs : TyList) (output : Ty) (variadic : Bool)

/-- `ty::BareFnTy`: a bare function pointer type. -/
inductive BareFnTy where
  | mk (fn_style : Nat) (abi : Nat) (sig : FnSig)

/-- `ty::ClosureTy`: a boxed closure type. -/
inductive ClosureTy where
  | mk (fn_style : Nat) (onceness : Bool) (store : TraitStore)
       (bounds : ExistentialBounds) (sig : FnSig) (abi : Nat)

/-- `subst::Substs`: a substitution, with a per-space vector of type
arguments and a (possibly erased) per-space vector of region arguments. -/
inductive Substs where
  | mk (types : TyVpps) (regions : RegionSubsts)

/-- The instance of `VecPerParamSpace` at element type `Ty` (it must live in
the mutual block because its elements are types). -/
inductive TyVpps where
  | mk (types : TyList) (selfs : TyList) (fns : TyList)

/-- The instance of `Vec` at element type `Ty` (it must live in the mutual
block because its elements are types). -/
inductive TyList where
  | nil
  | cons (head : Ty) (tail : TyList)

end

/-- Projection out of the interned wrapper (`ty::get(t).sty`). -/
def Ty.sty : Ty → Sty
  | .mk s => s

def Mt.ty : Mt → Ty
  | .mk t _ => t

def Mt.mutbl : Mt → Mutability
  | .mk _ m => m

def FnSig.binder_id : FnSig → Nat
  | .mk b _ _ _ => b

def FnSig.inputs : FnSig → TyList
  | .mk _ i _ _ => i

def FnSig.output : FnSig → Ty
  | .mk _ _ o _ => o

def FnSig.variadic : FnSig → Bool
  | .mk _ _ _ v => v

def BareFnTy.fn_style : BareFnTy → Nat
  | .mk st _ _ => st

def BareFnTy.abi : BareFnTy → Nat
  | .mk _ a _ => a

def BareFnTy.sig : BareFnTy → FnSig
  | .mk _ _ g => g

def ClosureTy.fn_style : ClosureTy → Nat
  | .mk st _ _ _ _ _ => st

def ClosureTy.onceness : ClosureTy → Bool
  | .mk _ o _ _ _ _ => o

def ClosureTy.store : ClosureTy → TraitStore
  | .mk _ _ st _ _ _ => st

def ClosureTy.bounds : ClosureTy → ExistentialBounds
  | .mk _ _ _ b _ _ => b

def ClosureTy.sig : ClosureTy → FnSig
  | .mk _ _ _ _ g _ => g

def ClosureTy.abi : ClosureTy → Nat
  | .mk _ _ _ _ _ a => a

def Substs.types : Substs → TyVpps
  | .mk t _ => t

def Substs.regions : Substs → RegionSubsts
  | .mk _ r => r

def TyVpps.types : TyVpps → TyList
  | .mk t _ _ => t

def TyVpps.selfs : TyVpps → TyList
  | .mk _ s _ => s

def TyVpps.fns : TyVpps → TyList
  | .mk _ _ f => f

/-- `ty::TraitRef`: a reference to a trait with its substitution. -/
structure TraitRef where
  def_id : Nat
  substs : Substs

/-- `ty::ItemSubsts`: a newtype record around a substitution. -/
structure ItemSubsts where
  substs : Substs

/-- `traits::Obligation`: a trait obligation; the engine folds only its
trait reference. -/
structure Obligation where
  cause : Nat
  recursion_depth : Nat
  trait_ref : Rc TraitRef

/-- `ty::UnsizeKind`: an unsizing step (its `UnsizeVtable` variant carries a
trait-object description and a self type). -/
inductive UnsizeKind where
  | UnsizeLength (n : Nat)
  | UnsizeStruct (k : UnsizeKind) (n : Nat)
  | UnsizeVtable (bounds : ExistentialBounds) (def_id : Nat) (substs : Substs)
      (self_ty : Ty)

/-- `ty::AutoRef`: an auto-reference adjustment chain; `AutoPtr` and
`AutoUnsafe` may carry a nested chain. -/
inductive AutoRef where
  | AutoPtr (r : Region) (m : Mutability) (a : Option AutoRef)
  | AutoUnsafe (m : Mutability) (a : Option AutoRef)
  | AutoUnsize (k : UnsizeKind)
  | AutoUnsizeUniq (k : UnsizeKind)

/-- The `TypeFolder` trait.  Hooks with a structural default are `Option`
fields (`none` = left at the default); `fold_region` defaults to the
identity; `fold_ty` is the wrap-around pair `fold_ty_pre`/`fold_ty_post`
(see the header comment). -/
structure Folder (σ : Type) where
  fold_ty_pre : Ty → σ → σ := fun _ s => s
  fold_ty_post : Ty → Ty → σ → Ty × σ := fun _ t s => (t, s)
  fold_region : Region → σ → Region × σ := fun r s => (r, s)
  fold_sty_override : Option (Sty → σ → Sty × σ) := none
  fold_mt_override : Option (Mt → σ → Mt × σ) := none
  fold_substs_override : Option (Substs → σ → Substs × σ) := none
  fold_sig_override : Option (FnSig → σ → FnSig × σ) := none
  fold_bare_fn_ty_override : Option (BareFnTy → σ → BareFnTy × σ) := none
  fold_closure_ty_override : Option (ClosureTy → σ → ClosureTy × σ) := none
  fold_trait_store_override : Option (TraitStore → σ → TraitStore × σ) := none
  fold_existential_bounds_override :
    Option (ExistentialBounds → σ → ExistentialBounds × σ) := none
  fold_trait_ref_override : Option (TraitRef → σ → TraitRef × σ) := none
  fold_autoref_override : Option (AutoRef → σ → AutoRef × σ) := none
  fold_item_substs_override : Option (ItemSubsts → σ → ItemSubsts × σ) := none
  fold_obligation_override : Option (Obligation → σ → Obligation × σ) := none

/-- `impl TypeFoldable for Option<T>`: fold the contained value if present
(the element fold `f` stands for `t.fold_with(folder)`). -/
def option_fold_with {α σ : Type} (f : α → σ → α × σ) :
    Option α → σ → Option α × σ
  | none, s => (none, s)
  | some a, s =>
    let r := f a s
    (some r.1, r.2)

/-- `impl TypeFoldable for Vec<T>` (and `OwnedSlice<T>`): fold each element
in order, threading the folder state left to right. -/
def vec_fold_with {α σ : Type} (f : α → σ → α × σ) :
    List α → σ → List α × σ
  | [], s => ([], s)
  | a :: ts, s =>
    let r := f a s
    let rs := vec_fold_with f ts r.2
    (r.1 :: rs.1, rs.2)

/-- The folder state reached after folding every element of a list (used to
describe the elementwise behavior of `vec_fold_with`). -/
def vec_fold_states {α σ : Type} (f : α → σ → α × σ) : List α → σ → σ
  | [], s => s
  | a :: ts, s => vec_fold_states f ts (f a s).2

/-- `impl TypeFoldable for Rc<T>`: rebuild the box around the folded
pointee. -/
def rc_fold_with {α σ : Type} (f : α → σ → α × σ) (x : Rc α) (s : σ) :
    Rc α × σ :=
  let r := f x.val s
  (⟨r.1⟩, r.2)

/-- `impl TypeFoldable for VecPerParamSpace<T>`: fold each element within
its space, in storage order. -/
def vec_per_param_space_fold_with {α σ : Type} (f : α → σ → α × σ)
    (v : VecPerParamSpace α) (s : σ) : VecPerParamSpace α × σ :=
  let r1 := vec_fold_with f v.types s
  let r2 := vec_fold_with f v.selfs r1.2
  let r3 := vec_fold_with f v.fns r2.2
  (⟨r1.1, r2.1, r3.1⟩, r3.2)

/-- `impl TypeFoldable for ty::BuiltinBounds` (source lines 316-320): the
identity, for every folder. -/
def BuiltinBounds.fold_with {σ : Type} (_f : Folder σ) (b : BuiltinBounds)
    (s : σ) : BuiltinBounds × σ :=
  (b, s)

/-- `super_fold_trait_store` (source lines 565-574). -/
def super_fold_trait_store {σ : Type} (f : Folder σ) (ts : TraitStore)
    (s : σ) : TraitStore × σ :=
  match ts with
  | .UniqTraitStore => (.UniqTraitStore, s)
  | .RegionTraitStore r m =>
    let r1 := f.fold_region r s
    (.RegionTraitStore r1.1 m, r1.2)

/-- Dispatch of `TypeFolder::fold_trait_store`. -/
def fold_trait_store {σ : Type} (f : Folder σ) (ts : TraitStore) (s : σ) :
    TraitStore × σ :=
  match f.fold_trait_store_override with
  | some h => h ts s
  | none => super_fold_trait_store f ts s

/-- `super_fold_existential_bounds` (source lines 576-583): fold the region
bound, copy the builtin bounds unchanged. -/
def super_fold_existential_bounds {σ : Type} (f : Folder σ)
    (b : ExistentialBounds) (s : σ) : ExistentialBounds × σ :=
  let r1 := f.fold_region b.region_bound s
  (⟨r1.1, b.builtin_bounds⟩, r1.2)

/-- Dispatch of `TypeFolder::fold_existential_bounds`. -/
def fold_existential_bounds {σ : Type} (f : Folder σ) (b : ExistentialBounds)
    (s : σ) : ExistentialBounds × σ :=
  match f.fold_existential_bounds_override with
  | some h => h b s
  | none => super_fold_existential_bounds f b s

mutual

/-- Dispatch of `Ty::fold_with`/`TypeFolder::fold_ty`: the folder's
`fold_ty` is the wrap-around pair applied around `super_fold_ty`. -/
def fold_ty {σ : Type} (f : Folder σ) (t : Ty) (s : σ) : Ty × σ :=
  let s1 := f.fold_ty_pre t s
  let r := super_fold_ty f t s1
  f.fold_ty_post t r.1 r.2

/-- `super_fold_ty` (source lines 438-443): fold the structural `sty`
through the folder's `fold_sty` hook and re-intern. -/
def super_fold_ty {σ : Type} (f : Folder σ) (t : Ty) (s : σ) : Ty × σ :=
  match t with
  | .mk st =>
    let r := fold_sty f st s
    (Ty.mk r.1, r.2)

/-- Dispatch of `Sty::fold_with`/`TypeFolder::fold_sty`. -/
def fold_sty {σ : Type} (f : Folder σ) (st : Sty) (s : σ) : Sty × σ :=
  match f.fold_sty_override with
  | some h => h st s
  | none => super_fold_sty f st s

/-- `super_fold_sty` (source lines 508-563): recurse into every nested
type/substitution/region field, rebuild the variant with the same tag,
return leaf variants unchanged. -/
def super_fold_sty {σ : Type} (f : Folder σ) (st : Sty) (s : σ) : Sty × σ :=
  match st with
  | .ty_uniq t =>
    let r := fold_ty f t s
    (.ty_uniq r.1, r.2)
  | .ty_ptr tm =>
    let r := fold_mt f tm s
    (.ty_ptr r.1, r.2)
  | .ty_vec t sz =>
    let r := fold_ty f t s
    (.ty_vec r.1 sz, r.2)
  | .ty_open t =>
    let r := fold_ty f t s
    (.ty_open r.1, r.2)
  | .ty_enum did sub =>
    let r := fold_substs f sub s
    (.ty_enum did r.1, r.2)
  | .ty_trait did sub bounds =>
    let r1 := fold_substs f sub s
    let r2 := fold_existential_bounds f bounds r1.2
    (.ty_trait did r1.1 r2.1, r2.2)
  | .ty_tup ts =>
    let r := fold_ty_list f ts s
    (.ty_tup r.1, r.2)
  | .ty_bare_fn fy =>
    let r := fold_bare_fn_ty f fy s
    (.ty_bare_fn r.1, r.2)
  | .ty_closure fy =>
    let r := fold_closure_ty f fy s
    (.ty_closure r.1, r.2)
  | .ty_rptr rg tm =>
    let r1 := f.fold_region rg s
    let r2 := fold_mt f tm r1.2
    (.ty_rptr r1.1 r2.1, r2.2)
  | .ty_struct did sub =>
    let r := fold_substs f sub s
    (.ty_struct did r.1, r.2)
  | .ty_unboxed_closure did rg =>
    let r1 := f.fold_region rg s
    (.ty_unboxed_closure did r1.1, r1.2)
  | .ty_nil => (.ty_nil, s)
  | .ty_bot => (.ty_bot, s)
  | .ty_bool => (.ty_bool, s)
  | .ty_char => (.ty_char, s)
  | .ty_str => (.ty_str, s)
  | .ty_int k => (.ty_int k, s)
  | .ty_uint k => (.ty_uint k, s)
  | .ty_float k => (.ty_float k, s)
  | .ty_err => (.ty_err, s)
  | .ty_infer v => (.ty_infer v, s)
  | .ty_param sp i did => (.ty_param sp i did, s)

/-- Dispatch of `mt::fold_with`/`TypeFolder::fold_mt`. -/
def fold_mt {σ : Type} (f : Folder σ) (tm : Mt) (s : σ) : Mt × σ :=
  match f.fold_mt_override with
  | some h => h tm s
  | none => super_fold_mt f tm s

/-- `super_fold_mt` (source lines 501-506). -/
def super_fold_mt {σ : Type} (f : Folder σ) (tm : Mt) (s : σ) : Mt × σ :=
  match tm with
  | .mk t m =>
    let r := fold_ty f t s
    (.mk r.1 m, r.2)

/-- Dispatch of `Substs::fold_with`/`TypeFolder::fold_substs`. -/
def fold_substs {σ : Type} (f : Folder σ) (sub : Substs) (s : σ) :
    Substs × σ :=
  match f.fold_substs_override with
  | some h => h sub s
  | none => super_fold_substs f sub s

/-- `super_fold_substs` (source lines 445-459): fold the region component
(when not erased) and then the type component. -/
def super_fold_substs {σ : Type} (f : Folder σ) (sub : Substs) (s : σ) :
    Substs × σ :=
  match sub with
  | .mk tys regions =>
    let r1 := match regions with
      | .ErasedRegions => (RegionSubsts.ErasedRegions, s)
      | .NonerasedRegions rs =>
        let r := vec_per_param_space_fold_with
          (fun rg s1 => f.fold_region rg s1) rs s
        (RegionSubsts.NonerasedRegions r.1, r.2)
    let r2 := fold_ty_vpps f tys r1.2
    (.mk r2.1 r1.1, r2.2)

/-- Dispatch of `FnSig::fold_with`/`TypeFolder::fold_sig`. -/
def fold_sig {σ : Type} (f : Folder σ) (g : FnSig) (s : σ) : FnSig × σ :=
  match f.fold_sig_override with
  | some h => h g s
  | none => super_fold_sig f g s

/-- `super_fold_sig` (source lines 461-468): keep the binder id, fold the
inputs and the output. -/
def super_fold_sig {σ : Type} (f : Folder σ) (g : FnSig) (s : σ) :
    FnSig × σ :=
  match g with
  | .mk bid inputs output variadic =>
    let r1 := fold_ty_list f inputs s
    let r2 := fold_ty f output r1.2
    (.mk bid r1.1 r2.1 variadic, r2.2)

/-- Dispatch of `BareFnTy::fold_with`/`TypeFolder::fold_bare_fn_ty`. -/
def fold_bare_fn_ty {σ : Type} (f : Folder σ) (fy : BareFnTy) (s : σ) :
    BareFnTy × σ :=
  match f.fold_bare_fn_ty_override with
  | some h => h fy s
  | none => super_fold_bare_fn_ty f fy s

/-- `super_fold_bare_fn_ty` (source lines 470-477). -/
def super_fold_bare_fn_ty {σ : Type} (f : Folder σ) (fy : BareFnTy) (s : σ) :
    BareFnTy × σ :=
  match fy with
  | .mk st abi g =>
    let r := fold_sig f g s
    (.mk st abi r.1, r.2)

/-- Dispatch of `ClosureTy::fold_with`/`TypeFolder::fold_closure_ty`. -/
def fold_closure_ty {σ : Type} (f : Folder σ) (fy : ClosureTy) (s : σ) :
    ClosureTy × σ :=
  match f.fold_closure_ty_override with
  | some h => h fy s
  | none => super_fold_closure_ty f fy s

/-- `super_fold_closure_ty` (source lines 479-491): fold the store, the
signature and the bounds; copy style, onceness and abi. -/
def super_fold_closure_ty {σ : Type} (f : Folder σ) (fy : ClosureTy)
    (s : σ) : ClosureTy × σ :=
  match fy with
  | .mk st once store bounds g abi =>
    let r1 := fold_trait_store f store s
    let r2 := fold_sig f g r1.2
    let r3 := fold_existential_bounds f bounds r2.2
    (.mk st once r1.1 r3.1 r2.1 abi, r3.2)

/-- The `Vec<Ty>` instance of container folding, specialized so that it can
recurse in the mutual block (elementwise it folds with `fold_ty`). -/
def fold_ty_list {σ : Type} (f : Folder σ) (l : TyList) (s : σ) :
    TyList × σ :=
  match l with
  | .nil => (.nil, s)
  | .cons t ts =>
    let r := fold_ty f t s
    let rs := fold_ty_list f ts r.2
    (.cons r.1 rs.1, rs.2)

/-- The `VecPerParamSpace<Ty>` instance of container folding, specialized so
that it can recurse in the mutual block. -/
def fold_ty_vpps {σ : Type} (f : Folder σ) (v : TyVpps) (s : σ) :
    TyVpps × σ :=
  match v with
  | .mk tys selfs fns =>
    let r1 := fold_ty_list f tys s
    let r2 := fold_ty_list f selfs r1.2
    let r3 := fold_ty_list f fns r2.2
    (.mk r1.1 r2.1 r3.1, r3.2)

end

/-- `impl TypeFoldable for ty::UnsizeKind` (source lines 373-389): the
degenerate pattern — inline structural traversal, no dedicated hook. -/
def unsize_kind_fold_with {σ : Type} (f : Folder σ) :
    UnsizeKind → σ → UnsizeKind × σ
  | .UnsizeLength n, s => (.UnsizeLength n, s)
  | .UnsizeStruct k n, s =>
    let r := unsize_kind_fold_with f k s
    (.UnsizeStruct r.1 n, r.2)
  | .UnsizeVtable bounds did sub self_ty, s =>
    let r1 := fold_existential_bounds f bounds s
    let r2 := fold_substs f sub r1.2
    let r3 := fold_ty f self_ty r2.2
    (.UnsizeVtable r1.1 did r2.1 r3.1, r3.2)

/-- `super_fold_autoref` (source lines 585-601).  Note: a nested `AutoRef`
is folded by a direct recursive call to `super_fold_autoref`, exactly as in
the source (`Some(box super_fold_autoref(this, &**a))`), not through the
folder's `fold_autoref` hook. -/
def super_fold_autoref {σ : Type} (f : Folder σ) (a : AutoRef) (s : σ) :
    AutoRef × σ :=
  match a with
  | .AutoPtr r m none =>
    let r1 := f.fold_region r s
    (.AutoPtr r1.1 m none, r1.2)
  | .AutoPtr r m (some a1) =>
    let r1 := f.fold_region r s
    let r2 := super_fold_autoref f a1 r1.2
    (.AutoPtr r1.1 m (some r2.1), r2.2)
  | .AutoUnsafe m none => (.AutoUnsafe m none, s)
  | .AutoUnsafe m (some a1) =>
    let r2 := super_fold_autoref f a1 s
    (.AutoUnsafe m (some r2.1), r2.2)
  | .AutoUnsize k =>
    let r := unsize_kind_fold_with f k s
    (.AutoUnsize r.1, r.2)
  | .AutoUnsizeUniq k =>
    let r := unsize_kind_fold_with f k s
    (.AutoUnsizeUniq r.1, r.2)

/-- Dispatch of `AutoRef::fold_with`/`TypeFolder::fold_autoref`. -/
def fold_autoref {σ : Type} (f : Folder σ) (a : AutoRef) (s : σ) :
    AutoRef × σ :=
  match f.fold_autoref_override with
  | some h => h a s
  | none => super_fold_autoref f a s

/-- `super_fold_trait_ref` (source lines 492-499). -/
def super_fold_trait_ref {σ : Type} (f : Folder σ) (t : TraitRef) (s : σ) :
    TraitRef × σ :=
  let r := fold_substs f t.substs s
  (⟨t.def_id, r.1⟩, r.2)

/-- Dispatch of `TraitRef::fold_with`/`TypeFolder::fold_trait_ref`. -/
def fold_trait_ref {σ : Type} (f : Folder σ) (t : TraitRef) (s : σ) :
    TraitRef × σ :=
  match f.fold_trait_ref_override with
  | some h => h t s
  | none => super_fold_trait_ref f t s

/-- `super_fold_item_substs` (source lines 603-610). -/
def super_fold_item_substs {σ : Type} (f : Folder σ) (i : ItemSubsts)
    (s : σ) : ItemSubsts × σ :=
  let r := fold_substs f i.substs s
  (⟨r.1⟩, r.2)

/-- Dispatch of `TypeFolder::fold_item_substs`. -/
def fold_item_substs {σ : Type} (f : Folder σ) (i : ItemSubsts) (s : σ) :
    ItemSubsts × σ :=
  match f.fold_item_substs_override with
  | some h => h i s
  | none => super_fold_item_substs f i s

/-- `impl TypeFoldable for ty::ItemSubsts` (source lines 254-260): the
degenerate pattern — the `substs` field is folded inline and the
`fold_item_substs` hook is not consulted. -/
def ItemSubsts.fold_with {σ : Type} (f : Folder σ) (i : ItemSubsts)
    (s : σ) : ItemSubsts × σ :=
  let r := fold_substs f i.substs s
  (⟨r.1⟩, r.2)

/-- `super_fold_obligation` (source lines 612-621): copy the cause and the
recursion depth, fold the trait reference (through the `Rc` instance). -/
def super_fold_obligation {σ : Type} (f : Folder σ) (o : Obligation)
    (s : σ) : Obligation × σ :=
  let r := rc_fold_with (fun t s1 => fold_trait_ref f t s1) o.trait_ref s
  (⟨o.cause, o.recursion_depth, r.1⟩, r.2)

/-- Dispatch of `Obligation::fold_with`/`TypeFolder::fold_obligation`. -/
def fold_obligation {σ : Type} (f : Folder σ) (o : Obligation) (s : σ) :
    Obligation × σ :=
  match f.fold_obligation_override with
  | some h => h o s
  | none => super_fold_obligation f o s

/-- `impl TypeFoldable for Ty` (source lines 200-204): dispatch to
`fold_ty`. -/
def Ty.fold_with {σ : Type} (f : Folder σ) (t : Ty) (s : σ) : Ty × σ :=
  fold_ty f t s

/-- `impl TypeFoldable for ty::sty` (source lines 230-234): dispatch to
`fold_sty`. -/
def Sty.fold_with {σ : Type} (f : Folder σ) (st : Sty) (s : σ) : Sty × σ :=
  fold_sty f st s

/-- `impl TypeFoldable for ty::mt` (source lines 218-222): dispatch to
`fold_mt`. -/
def Mt.fold_with {σ : Type} (f : Folder σ) (tm : Mt) (s : σ) : Mt × σ :=
  fold_mt f tm s

/-- `impl TypeFoldable for ty::FnSig` (source lines 224-228): dispatch to
`fold_sig`. -/
def FnSig.fold_with {σ : Type} (f : Folder σ) (g : FnSig) (s : σ) :
    FnSig × σ :=
  fold_sig f g s

/-- `impl TypeFoldable for ty::BareFnTy` (source lines 206-210): dispatch to
`fold_bare_fn_ty`. -/
def BareFnTy.fold_with {σ : Type} (f : Folder σ) (fy : BareFnTy) (s : σ) :
    BareFnTy × σ :=
  fold_bare_fn_ty f fy s

/-- `impl TypeFoldable for ty::ClosureTy` (source lines 212-216): dispatch
to `fold_closure_ty`. -/
def ClosureTy.fold_with {σ : Type} (f : Folder σ) (fy : ClosureTy) (s : σ) :
    ClosureTy × σ :=
  fold_closure_ty f fy s

/-- `impl TypeFoldable for subst::Substs` (source lines 248-252): dispatch
to `fold_substs`. -/
def Substs.fold_with {σ : Type} (f : Folder σ) (sub : Substs) (s : σ) :
    Substs × σ :=
  fold_substs f sub s

/-- `impl TypeFoldable for ty::Region` (source lines 242-246): dispatch to
`fold_region`. -/
def Region.fold_with {σ : Type} (f : Folder σ) (r : Region) (s : σ) :
    Region × σ :=
  f.fold_region r s

/-- `impl TypeFoldable for ty::TraitStore` (source lines 194-198): dispatch
to `fold_trait_store`. -/
def TraitStore.fold_with {σ : Type} (f : Folder σ) (ts : TraitStore)
    (s : σ) : TraitStore × σ :=
  fold_trait_store f ts s

/-- `impl TypeFoldable for ty::ExistentialBounds` (source lines 322-326):
dispatch to `fold_existential_bounds`. -/
def ExistentialBounds.fold_with {σ : Type} (f : Folder σ)
    (b : ExistentialBounds) (s : σ) : ExistentialBounds × σ :=
  fold_existential_bounds f b s

/-- `impl TypeFoldable for ty::TraitRef` (source lines 236-240): dispatch to
`fold_trait_ref`. -/
def TraitRef.fold_with {σ : Type} (f : Folder σ) (t : TraitRef) (s : σ) :
    TraitRef × σ :=
  fold_trait_ref f t s

/-- `impl TypeFoldable for ty::AutoRef` (source lines 262-266): dispatch to
`fold_autoref`. -/
def AutoRef.fold_with {σ : Type} (f : Folder σ) (a : AutoRef) (s : σ) :
    AutoRef × σ :=
  fold_autoref f a s

/-- `impl TypeFoldable for traits::Obligation` (source lines 391-395):
dispatch to `fold_obligation`. -/
def Obligation.fold_with {σ : Type} (f : Folder σ) (o : Obligation)
    (s : σ) : Obligation × σ :=
  fold_obligation f o s

/-- A folder all of whose hooks are left at their structural defaults
(every override slot is empty, `fold_region` is the identity and the
`fold_ty` wrap-around pair is trivial). -/
def defaultFolder (σ : Type) : Folder σ := {}

/-- `BottomUpFolder` (source lines 626-638): run the structural default for
a type node, then apply the caller-supplied post-transform. -/
def BottomUpFolder (fldop : Ty → Ty) : Folder Unit :=
  { fold_ty_post := fun _ t1 s => (fldop t1, s) }

/-- `opt_binder_id_of_function` (source lines 688-696): if the type is a
closure or bare-function type, return its signature's binder id. -/
def opt_binder_id_of_function (t : Ty) : Option Nat :=
  match t.sty with
  | .ty_closure f => some f.sig.binder_id
  | .ty_bare_fn f => some f.sig.binder_id
  | _ => none

namespace RegionFolder

/-- `RegionFolder::fold_ty` entry bookkeeping (source lines 701-707): on
entering a bare-function or closure type, push its binder id onto the
`within_binder_ids` stack. -/
def fold_ty_enter (t : Ty) (s : List Nat) : List Nat :=
  match opt_binder_id_of_function t with
  | some bid => s ++ [bid]
  | none => s

/-- `RegionFolder::fold_ty` exit bookkeeping (source lines 709-717): apply
the caller-supplied type post-transform to the rebuilt node and, when a
binder id was pushed on entry, pop it. -/
def fold_ty_exit (fld_t : Ty → Ty) (t : Ty) (t1 : Ty) (s : List Nat) :
    Ty × List Nat :=
  (fld_t t1,
   match opt_binder_id_of_function t with
   | some _ => s.dropLast
   | none => s)

/-- `RegionFolder::fold_region` (source lines 719-731): a late-bound region
whose binder id is currently on the stack is passed through unchanged;
every other region is handed to the caller-supplied rewrite `fld_r`. -/
def fold_region (fld_r : Region → Region) (r : Region) (s : List Nat) :
    Region × List Nat :=
  (match r with
   | .ReLateBound binder_id _ =>
     if s.contains binder_id then r else fld_r r
   | _ => fld_r r, s)

/-- `RegionFolder::general` (source lines 663-673): a region-aware folder
with a free-region rewrite `fld_r`, a type post-transform `fld_t` and an
initially empty `within_binder_ids` stack (the stack is the folder state,
with the top at the back, like a `Vec`). -/
def general (fld_r : Region → Region) (fld_t : Ty → Ty) :
    Folder (List Nat) :=
  { fold_ty_pre := fold_ty_enter,
    fold_ty_post := fold_ty_exit fld_t,
    fold_region := fold_region fld_r }

/-- `RegionFolder::regions` (source lines 675-685): a region-aware folder
whose type post-transform is a no-op. -/
def regions (fld_r : Region → Region) : Folder (List Nat) :=
  general fld_r (fun t => t)

end RegionFolder

namespace RegionEraser

/-- `RegionEraser::fold_region` (source lines 747-756): late-bound and
early-bound regions are preserved; every other region becomes the canonical
static region. -/
def fold_region (r : Region) : Region :=
  match r with
  | .ReLateBound _ _ => r
  | .ReEarlyBound _ _ _ _ => r
  | _ => .ReStatic

end RegionEraser

/-- A folder that overrides only the region hook, with a pure region
rewrite; `RegionEraser` and the skeleton functions below are instances of
this shape. -/
def regionMapFolder (g : Region → Region) : Folder Unit :=
  { fold_region := fun r s => (g r, s) }

/-- The `RegionEraser` folder (source lines 738-745): it overrides only
`fold_region` and inherits every structural default. -/
def RegionEraser.folder : Folder Unit :=
  regionMapFolder RegionEraser.fold_region

/-- The `TypeFoldable` capability as a first-class bundle: a value of
`Foldable A` is the `fold_with` implementation of `A` (this lets the
trait's provided methods `subst` and `subst_spanned` be defined once, as in
the source). -/
structure Foldable (A : Type) : Type 1 where
  fold_with : {σ : Type} → Folder σ → A → σ → A × σ

/-- The `Foldable` instance for type terms. -/
def tyFoldable : Foldable Ty :=
  ⟨fun f t s => fold_ty f t s⟩

/-- Look up a type argument at a (space, index) slot of a substitution,
falling back to the interner's error term (`ty_err`) when the slot is not
covered. -/
def TyList.get : TyList → Nat → Option Ty
  | .nil, _ => none
  | .cons t _, 0 => some t
  | .cons _ ts, n + 1 => TyList.get ts n

def TyVpps.space : TyVpps → ParamSpace → TyList
  | v, .TypeSpace => v.types
  | v, .SelfSpace => v.selfs
  | v, .FnSpace => v.fns

def VecPerParamSpace.space {α : Type} :
    VecPerParamSpace α → ParamSpace → List α
  | v, .TypeSpace => v.types
  | v, .SelfSpace => v.selfs
  | v, .FnSpace => v.fns

/-- Modelled from the spec: `SubstFolder::new` lives in `middle/subst.rs`,
which is not part of the excerpt.  Per the spec (section 4.3), the
substitution folder's fold-ty hook replaces a generic-parameter placeholder
by the argument at its (space, index) slot — or by the interner's error term
when the substitution does not cover that slot — and falls through to the
structural default on every other type, so nested placeholders are replaced
too; its region hook resolves early-bound regions against the
substitution's region component when present, or erases them to the static
region when the substitution was built with regions erased.  The context
and the optional span are carried for interning and diagnostics only. -/
def SubstFolder.new (_tcx : Ctxt) (substs : Substs) (_span : Option Span) :
    Folder Unit :=
  { fold_ty_post := fun t0 t1 s =>
      (match t0.sty with
       | .ty_param space idx _ =>
         match (substs.types.space space).get idx with
         | some arg => arg
         | none => Ty.mk .ty_err
       | _ => t1, s),
    fold_region := fun r s =>
      (match r with
       | .ReEarlyBound _ space idx _ =>
         match substs.regions with
         | .ErasedRegions => .ReStatic
         | .NonerasedRegions rs =>
           match (rs.space space).get? idx with
           | some r1 => r1
           | none => r
       | _ => r, s) }

/-- `TypeFoldable::subst_spanned` (source lines 62-68): construct a fresh
substitution folder from the context, the substitution and the optional
span, and perform one fold with it. -/
def Foldable.subst_spanned {A : Type} (F : Foldable A) (tcx : Ctxt)
    (substs : Substs) (span : Option Span) (v : A) : A :=
  (F.fold_with (SubstFolder.new tcx substs span) v ()).1

/-- `TypeFoldable::subst` (source lines 58-60): `subst_spanned` with no
span. -/
def Foldable.subst {A : Type} (F : Foldable A) (tcx : Ctxt)
    (substs : Substs) (v : A) : A :=
  F.subst_spanned tcx substs none v

/-- `erase_regions` (source lines 742-745): fold with a fresh
`RegionEraser`. -/
def erase_regions {A : Type} (F : Foldable A) (_tcx : Ctxt) (t : A) : A :=
  (F.fold_with RegionEraser.folder t ()).1

/-- Region erasure on type terms. -/
def eraseTy (t : Ty) : Ty :=
  (fold_ty RegionEraser.folder t ()).1

/-- Region erasure on `sty` values. -/
def eraseSty (st : Sty) : Sty :=
  (fold_sty RegionEraser.folder st ()).1

/-- Region erasure on signatures. -/
def eraseSig (g : FnSig) : FnSig :=
  (fold_sig RegionEraser.folder g ()).1

/-- Region erasure on substitutions. -/
def eraseSubsts (sub : Substs) : Substs :=
  (fold_substs RegionEraser.folder sub ()).1

/-- The effect of a region-only folder on type terms (every concrete folder
below that overrides just `fold_region` with a pure rewrite `g` computes
this function). -/
def mapRegionsTy (g : Region → Region) (t : Ty) : Ty :=
  (fold_ty (regionMapFolder g) t ()).1

def mapRegionsSty (g : Region → Region) (st : Sty) : Sty :=
  (fold_sty (regionMapFolder g) st ()).1

def mapRegionsMt (g : Region → Region) (tm : Mt) : Mt :=
  (fold_mt (regionMapFolder g) tm ()).1

def mapRegionsSig (g : Region → Region) (sg : FnSig) : FnSig :=
  (fold_sig (regionMapFolder g) sg ()).1

def mapRegionsBareFn (g : Region → Region) (fy : BareFnTy) : BareFnTy :=
  (fold_bare_fn_ty (regionMapFolder g) fy ()).1

def mapRegionsClosure (g : Region → Region) (fy : ClosureTy) : ClosureTy :=
  (fold_closure_ty (regionMapFolder g) fy ()).1

def mapRegionsSubsts (g : Region → Region) (sub : Substs) : Substs :=
  (fold_substs (regionMapFolder g) sub ()).1

def mapRegionsTyList (g : Region → Region) (l : TyList) : TyList :=
  (fold_ty_list (regionMapFolder g) l ()).1

def mapRegionsTyVpps (g : Region → Region) (v : TyVpps) : TyVpps :=
  (fold_ty_vpps (regionMapFolder g) v ()).1

def mapRegionsTraitStore (g : Region → Region) (ts : TraitStore) :
    TraitStore :=
  (fold_trait_store (regionMapFolder g) ts ()).1

def mapRegionsEB (g : Region → Region) (b : ExistentialBounds) :
    ExistentialBounds :=
  (fold_existential_bounds (regionMapFolder g) b ()).1

/-- Is a region "bound" in the sense of the data model (only late-bound and
early-bound regions are bound; all others are free for folding purposes)? -/
def Region.isBound : Region → Bool
  | .ReLateBound _ _ => true
  | .ReEarlyBound _ _ _ _ => true
  | _ => false

/-- Is a region tagged free (`ReFree`)? -/
def Region.isFree : Region → Bool
  | .ReFree _ _ => true
  | _ => false

/-- Is a region an inference placeholder (`ReInfer`)? -/
def Region.isInfer : Region → Bool
  | .ReInfer _ => true
  | _ => false

/-- The regions of the store of a closure type, in folding order. -/
def TraitStore.regionList : TraitStore → List Region
  | .UniqTraitStore => []
  | .RegionTraitStore r _ => [r]

/-- The regions of the region component of a substitution, in folding
order. -/
def RegionSubsts.regionList : RegionSubsts → List Region
  | .ErasedRegions => []
  | .NonerasedRegions rs => rs.types ++ rs.selfs ++ rs.fns

mutual

/-- All region occurrences of a type term, listed in the order in which the
structural default recursion visits them. -/
def tyRegions : Ty → List Region
  | .mk st => styRegions st

def styRegions : Sty → List Region
  | .ty_uniq t => tyRegions t
  | .ty_ptr tm => mtRegions tm
  | .ty_vec t _ => tyRegions t
  | .ty_open t => tyRegions t
  | .ty_enum _ sub => substsRegions sub
  | .ty_trait _ sub b => substsRegions sub ++ [b.region_bound]
  | .ty_tup ts => tyListRegions ts
  | .ty_bare_fn fy => bareFnRegions fy
  | .ty_closure fy => closureRegions fy
  | .ty_rptr r tm => r :: mtRegions tm
  | .ty_struct _ sub => substsRegions sub
  | .ty_unboxed_closure _ r => [r]
  | .ty_nil => []
  | .ty_bot => []
  | .ty_bool => []
  | .ty_char => []
  | .ty_str => []
  | .ty_int _ => []
  | .ty_uint _ => []
  | .ty_float _ => []
  | .ty_err => []
  | .ty_infer _ => []
  | .ty_param _ _ _ => []

def mtRegions : Mt → List Region
  | .mk t _ => tyRegions t

def sigRegions : FnSig → List Region
  | .mk _ inputs output _ => tyListRegions inputs ++ tyRegions output

def bareFnRegions : BareFnTy → List Region
  | .mk _ _ g => sigRegions g

def closureRegions : ClosureTy → List Region
  | .mk _ _ store bounds g _ =>
    store.regionList ++ sigRegions g ++ [bounds.region_bound]

def substsRegions : Substs → List Region
  | .mk tys regions => regions.regionList ++ tyVppsRegions tys

def tyVppsRegions : TyVpps → List Region
  | .mk tys selfs fns =>
    tyListRegions tys ++ tyListRegions selfs ++ tyListRegions fns

def tyListRegions : TyList → List Region
  | .nil => []
  | .cons t ts => tyRegions t ++ tyListRegions ts

end

/-- Folding a sequence with a state-preserving elementwise function is
`List.map`. -/
@[simp]
theorem vec_fold_with_pure {α σ : Type} (g : α → α) (l : List α) (s : σ) :
    vec_fold_with (fun a s1 => (g a, s1)) l s = (l.map g, s) := by
  induction l generalizing s with
  | nil => simp [vec_fold_with]
  | cons a ts ih => simp [vec_fold_with, ih]

/-- Folding a per-space vector with a state-preserving elementwise function
maps each space. -/
@[simp]
theorem vec_per_param_space_fold_with_pure {α σ : Type} (g : α → α)
    (v : VecPerParamSpace α) (s : σ) :
    vec_per_param_space_fold_with (fun a s1 => (g a, s1)) v s =
      (⟨v.types.map g, v.selfs.map g, v.fns.map g⟩, s) := by
  simp [vec_per_param_space_fold_with]

/-- The effect of a region-only folder on the region component of a
substitution. -/
def mapRegionsRegionSubsts (g : Region → Region) :
    RegionSubsts → RegionSubsts
  | .ErasedRegions => .ErasedRegions
  | .NonerasedRegions rs =>
    .NonerasedRegions ⟨rs.types.map g, rs.selfs.map g, rs.fns.map g⟩

@[simp]
theorem mapRegionsTy_mk (g : Region → Region) (st : Sty) :
    mapRegionsTy g (.mk st) = .mk (mapRegionsSty g st) := by
  simp [mapRegionsTy, mapRegionsSty, fold_ty, super_fold_ty, regionMapFolder]

@[simp]
theorem mapRegionsMt_mk (g : Region → Region) (t : Ty) (m : Mutability) :
    mapRegionsMt g (.mk t m) = .mk (mapRegionsTy g t) m := by
  simp [mapRegionsMt, mapRegionsTy, fold_mt, super_fold_mt, regionMapFolder]

@[simp]
theorem mapRegionsSig_mk (g : Region → Region) (b : Nat) (ins : TyList)
    (out : Ty) (v : Bool) :
    mapRegionsSig g (.mk b ins out v) =
      .mk b (mapRegionsTyList g ins) (mapRegionsTy g out) v := by
  simp [mapRegionsSig, mapRegionsTyList, mapRegionsTy, fold_sig,
    super_fold_sig, regionMapFolder]

@[simp]
theorem mapRegionsBareFn_mk (g : Region → Region) (st abi : Nat)
    (sg : FnSig) :
    mapRegionsBareFn g (.mk st abi sg) = .mk st abi (mapRegionsSig g sg) := by
  simp [mapRegionsBareFn, mapRegionsSig, fold_bare_fn_ty,
    super_fold_bare_fn_ty, regionMapFolder]

@[simp]
theorem mapRegionsTraitStore_uniq (g : Region → Region) :
    mapRegionsTraitStore g .UniqTraitStore = .UniqTraitStore := by
  simp [mapRegionsTraitStore, fold_trait_store, super_fold_trait_store,
    regionMapFolder]

@[simp]
theorem mapRegionsTraitStore_region (g : Region → Region) (r : Region)
    (m : Mutability) :
    mapRegionsTraitStore g (.RegionTraitStore r m) =
      .RegionTraitStore (g r) m := by
  simp [mapRegionsTraitStore, fold_trait_store, super_fold_trait_store,
    regionMapFolder]

@[simp]
theorem mapRegionsEB_mk (g : Region → Region) (r : Region)
    (bb : BuiltinBounds) :
    mapRegionsEB g ⟨r, bb⟩ = ⟨g r, bb⟩ := by
  simp [mapRegionsEB, fold_existential_bounds, super_fold_existential_bounds,
    regionMapFolder]

@[simp]
theorem mapRegionsClosure_mk (g : Region → Region) (st : Nat) (once : Bool)
    (store : TraitStore) (bounds : ExistentialBounds) (sg : FnSig)
    (abi : Nat) :
    mapRegionsClosure g (.mk st once store bounds sg abi) =
      .mk st once (mapRegionsTraitStore g store) (mapRegionsEB g bounds)
        (mapRegionsSig g sg) abi := by
  simp [mapRegionsClosure, mapRegionsTraitStore, mapRegionsEB, mapRegionsSig,
    fold_closure_ty, super_fold_closure_ty, regionMapFolder]

@[simp]
theorem mapRegionsTyList_nil (g : Region → Region) :
    mapRegionsTyList g .nil = .nil := by
  simp [mapRegionsTyList, fold_ty_list]

@[simp]
theorem mapRegionsTyList_cons (g : Region → Region) (t : Ty) (ts : TyList) :
    mapRegionsTyList g (.cons t ts) =
      .cons (mapRegionsTy g t) (mapRegionsTyList g ts) := by
  simp [mapRegionsTyList, mapRegionsTy, fold_ty_list]

@[simp]
theorem mapRegionsTyVpps_mk (g : Region → Region) (a b c : TyList) :
    mapRegionsTyVpps g (.mk a b c) =
      .mk (mapRegionsTyList g a) (mapRegionsTyList g b)
        (mapRegionsTyList g c) := by
  simp [mapRegionsTyVpps, mapRegionsTyList, fold_ty_vpps]

@[simp]
theorem mapRegionsSubsts_mk (g : Region → Region) (tys : TyVpps)
    (rgs : RegionSubsts) :
    mapRegionsSubsts g (.mk tys rgs) =
      .mk (mapRegionsTyVpps g tys) (mapRegionsRegionSubsts g rgs) := by
  cases rgs with
  | ErasedRegions =>
    simp [mapRegionsSubsts, mapRegionsTyVpps, fold_substs, super_fold_substs,
      regionMapFolder, mapRegionsRegionSubsts]
  | NonerasedRegions rs =>
    simp [mapRegionsSubsts, mapRegionsTyVpps, fold_substs, super_fold_substs,
      regionMapFolder, mapRegionsRegionSubsts]

@[simp]
theorem mapRegionsSty_uniq (g : Region → Region) (t : Ty) :
    mapRegionsSty g (.ty_uniq t) = .ty_uniq (mapRegionsTy g t) := by
  simp [mapRegionsSty, mapRegionsTy, fold_sty, super_fold_sty,
    regionMapFolder]

@[simp]
theorem mapRegionsSty_ptr (g : Region → Region) (tm : Mt) :
    mapRegionsSty g (.ty_ptr tm) = .ty_ptr (mapRegionsMt g tm) := by
  simp [mapRegionsSty, mapRegionsMt, fold_sty, super_fold_sty,
    regionMapFolder]

@[simp]
theorem mapRegionsSty_vec (g : Region → Region) (t : Ty) (sz : Option Nat) :
    mapRegionsSty g (.ty_vec t sz) = .ty_vec (mapRegionsTy g t) sz := by
  simp [mapRegionsSty, mapRegionsTy, fold_sty, super_fold_sty,
    regionMapFolder]

@[simp]
theorem mapRegionsSty_open (g : Region → Region) (t : Ty) :
    mapRegionsSty g (.ty_open t) = .ty_open (mapRegionsTy g t) := by
  simp [mapRegionsSty, mapRegionsTy, fold_sty, super_fold_sty,
    regionMapFolder]

@[simp]
theorem mapRegionsSty_enum (g : Region → Region) (did : Nat)
    (sub : Substs) :
    mapRegionsSty g (.ty_enum did sub) =
      .ty_enum did (mapRegionsSubsts g sub) := by
  simp [mapRegionsSty, mapRegionsSubsts, fold_sty, super_fold_sty,
    regionMapFolder]

@[simp]
theorem mapRegionsSty_trait (g : Region → Region) (did : Nat) (sub : Substs)
    (b : ExistentialBounds) :
    mapRegionsSty g (.ty_trait did sub b) =
      .ty_trait did (mapRegionsSubsts g sub) (mapRegionsEB g b) := by
  simp [mapRegionsSty, mapRegionsSubsts, mapRegionsEB, fold_sty,
    super_fold_sty, fold_existential_bounds, super_fold_existential_bounds,
    regionMapFolder]

@[simp]
theorem mapRegionsSty_tup (g : Region → Region) (ts : TyList) :
    mapRegionsSty g (.ty_tup ts) = .ty_tup (mapRegionsTyList g ts) := by
  simp [mapRegionsSty, mapRegionsTyList, fold_sty, super_fold_sty,
    regionMapFolder]

@[simp]
theorem mapRegionsSty_bare_fn (g : Region → Region) (fy : BareFnTy) :
    mapRegionsSty g (.ty_bare_fn fy) =
      .ty_bare_fn (mapRegionsBareFn g fy) := by
  simp [mapRegionsSty, mapRegionsBareFn, fold_sty, super_fold_sty,
    regionMapFolder]

@[simp]
theorem mapRegionsSty_closure (g : Region → Region) (fy : ClosureTy) :
    mapRegionsSty g (.ty_closure fy) =
      .ty_closure (mapRegionsClosure g fy) := by
  simp [mapRegionsSty, mapRegionsClosure, fold_sty, super_fold_sty,
    regionMapFolder]

@[simp]
theorem mapRegionsSty_rptr (g : Region → Region) (r : Region) (tm : Mt) :
    mapRegionsSty g (.ty_rptr r tm) =
      .ty_rptr (g r) (mapRegionsMt g tm) := by
  simp [mapRegionsSty, mapRegionsMt, fold_sty, super_fold_sty,
    regionMapFolder]

@[simp]
theorem mapRegionsSty_struct (g : Region → Region) (did : Nat)
    (sub : Substs) :
    mapRegionsSty g (.ty_struct did sub) =
      .ty_struct did (mapRegionsSubsts g sub) := by
  simp [mapRegionsSty, mapRegionsSubsts, fold_sty, super_fold_sty,
    regionMapFolder]

@[simp]
theorem mapRegionsSty_unboxed_closure (g : Region → Region) (did : Nat)
    (r : Region) :
    mapRegionsSty g (.ty_unboxed_closure did r) =
      .ty_unboxed_closure did (g r) := by
  simp [mapRegionsSty, fold_sty, super_fold_sty, regionMapFolder]

@[simp]
theorem mapRegionsSty_nil (g : Region → Region) :
    mapRegionsSty g .ty_nil = .ty_nil := by
  simp [mapRegionsSty, fold_sty, super_fold_sty, regionMapFolder]

@[simp]
theorem mapRegionsSty_bot (g : Region → Region) :
    mapRegionsSty g .ty_bot = .ty_bot := by
  simp [mapRegionsSty, fold_sty, super_fold_sty, regionMapFolder]

@[simp]
theorem mapRegionsSty_bool (g : Region → Region) :
    mapRegionsSty g .ty_bool = .ty_bool := by
  simp [mapRegionsSty, fold_sty, super_fold_sty, regionMapFolder]

@[simp]
theorem mapRegionsSty_char (g : Region → Region) :
    mapRegionsSty g .ty_char = .ty_char := by
  simp [mapRegionsSty, fold_sty, super_fold_sty, regionMapFolder]

@[simp]
theorem mapRegionsSty_str (g : Region → Region) :
    mapRegionsSty g .ty_str = .ty_str := by
  simp [mapRegionsSty, fold_sty, super_fold_sty, regionMapFolder]

@[simp]
theorem mapRegionsSty_int (g : Region → Region) (k : Nat) :
    mapRegionsSty g (.ty_int k) = .ty_int k := by
  simp [mapRegionsSty, fold_sty, super_fold_sty, regionMapFolder]

@[simp]
theorem mapRegionsSty_uint (g : Region → Region) (k : Nat) :
    mapRegionsSty g (.ty_uint k) = .ty_uint k := by
  simp [mapRegionsSty, fold_sty, super_fold_sty, regionMapFolder]

@[simp]
theorem mapRegionsSty_float (g : Region → Region) (k : Nat) :
    mapRegionsSty g (.ty_float k) = .ty_float k := by
  simp [mapRegionsSty, fold_sty, super_fold_sty, regionMapFolder]

@[simp]
theorem mapRegionsSty_err (g : Region → Region) :
    mapRegionsSty g .ty_err = .ty_err := by
  simp [mapRegionsSty, fold_sty, super_fold_sty, regionMapFolder]

@[simp]
theorem mapRegionsSty_infer (g : Region → Region) (v : Nat) :
    mapRegionsSty g (.ty_infer v) = .ty_infer v := by
  simp [mapRegionsSty, fold_sty, super_fold_sty, regionMapFolder]

@[simp]
theorem mapRegionsSty_param (g : Region → Region) (sp : ParamSpace)
    (i did : Nat) :
    mapRegionsSty g (.ty_param sp i did) = .ty_param sp i did := by
  simp [mapRegionsSty, fold_sty, super_fold_sty, regionMapFolder]

/-- With every hook at its default, the region component of a substitution
folds to itself. -/
theorem vec_fold_with_id {α σ : Type} (l : List α) (s : σ) :
    vec_fold_with (fun a s1 => (a, s1)) l s = (l, s) := by
  induction l generalizing s with
  | nil => simp [vec_fold_with]
  | cons a ts ih => simp [vec_fold_with, ih]

/-- Projections of the all-defaults folder (used by the identity lemmas). -/
@[simp]
theorem defaultFolder_pre {σ : Type} (t : Ty) (s : σ) :
    (defaultFolder σ).fold_ty_pre t s = s := rfl

@[simp]
theorem defaultFolder_post {σ : Type} (t t1 : Ty) (s : σ) :
    (defaultFolder σ).fold_ty_post t t1 s = (t1, s) := rfl

@[simp]
theorem defaultFolder_region {σ : Type} (r : Region) (s : σ) :
    (defaultFolder σ).fold_region r s = (r, s) := rfl

@[simp]
theorem defaultFolder_sty_o {σ : Type} :
    (defaultFolder σ).fold_sty_override = none := rfl

@[simp]
theorem defaultFolder_mt_o {σ : Type} :
    (defaultFolder σ).fold_mt_override = none := rfl

@[simp]
theorem defaultFolder_substs_o {σ : Type} :
    (defaultFolder σ).fold_substs_override = none := rfl

@[simp]
theorem defaultFolder_sig_o {σ : Type} :
    (defaultFolder σ).fold_sig_override = none := rfl

@[simp]
theorem defaultFolder_bare_fn_o {σ : Type} :
    (defaultFolder σ).fold_bare_fn_ty_override = none := rfl

@[simp]
theorem defaultFolder_closure_o {σ : Type} :
    (defaultFolder σ).fold_closure_ty_override = none := rfl

@[simp]
theorem defaultFolder_trait_store_o {σ : Type} :
    (defaultFolder σ).fold_trait_store_override = none := rfl

@[simp]
theorem defaultFolder_existential_bounds_o {σ : Type} :
    (defaultFolder σ).fold_existential_bounds_override = none := rfl

@[simp]
theorem defaultFolder_trait_ref_o {σ : Type} :
    (defaultFolder σ).fold_trait_ref_override = none := rfl

@[simp]
theorem defaultFolder_autoref_o {σ : Type} :
    (defaultFolder σ).fold_autoref_override = none := rfl

@[simp]
theorem defaultFolder_item_substs_o {σ : Type} :
    (defaultFolder σ).fold_item_substs_override = none := rfl

@[simp]
theorem defaultFolder_obligation_o {σ : Type} :
    (defaultFolder σ).fold_obligation_override = none := rfl

/-- Default folding of a trait store is the identity. -/
theorem dflt_trait_store {σ : Type} (ts : TraitStore) (s : σ) :
    fold_trait_store (defaultFolder σ) ts s = (ts, s) := by
  cases ts <;>
    simp [fold_trait_store, super_fold_trait_store]

/-- Default folding of existential bounds is the identity. -/
theorem dflt_existential_bounds {σ : Type} (b : ExistentialBounds) (s : σ) :
    fold_existential_bounds (defaultFolder σ) b s = (b, s) := by
  simp [fold_existential_bounds, super_fold_existential_bounds]

mutual

theorem dflt_ty (σ : Type) : (t : Ty) → (s : σ) →
    fold_ty (defaultFolder σ) t s = (t, s)
  | .mk st, s => by
    simp [fold_ty, super_fold_ty, dflt_sty σ st s]

theorem dflt_sty (σ : Type) : (st : Sty) → (s : σ) →
    fold_sty (defaultFolder σ) st s = (st, s)
  | .ty_uniq t, s => by
    simp [fold_sty, super_fold_sty, dflt_ty σ t s]
  | .ty_ptr tm, s => by
    simp [fold_sty, super_fold_sty, dflt_mt σ tm s]
  | .ty_vec t sz, s => by
    simp [fold_sty, super_fold_sty, dflt_ty σ t s]
  | .ty_open t, s => by
    simp [fold_sty, super_fold_sty, dflt_ty σ t s]
  | .ty_enum did sub, s => by
    simp [fold_sty, super_fold_sty, dflt_substs σ sub s]
  | .ty_trait did sub b, s => by
    simp [fold_sty, super_fold_sty, dflt_substs σ sub s,
      dflt_existential_bounds]
  | .ty_tup ts, s => by
    simp [fold_sty, super_fold_sty, dflt_ty_list σ ts s]
  | .ty_bare_fn fy, s => by
    simp [fold_sty, super_fold_sty, dflt_bare_fn σ fy s]
  | .ty_closure fy, s => by
    simp [fold_sty, super_fold_sty, dflt_closure σ fy s]
  | .ty_rptr r tm, s => by
    simp [fold_sty, super_fold_sty, dflt_mt σ tm s]
  | .ty_struct did sub, s => by
    simp [fold_sty, super_fold_sty, dflt_substs σ sub s]
  | .ty_unboxed_closure did r, s => by
    simp [fold_sty, super_fold_sty]
  | .ty_nil, s => by simp [fold_sty, super_fold_sty]
  | .ty_bot, s => by simp [fold_sty, super_fold_sty]
  | .ty_bool, s => by simp [fold_sty, super_fold_sty]
  | .ty_char, s => by simp [fold_sty, super_fold_sty]
  | .ty_str, s => by simp [fold_sty, super_fold_sty]
  | .ty_int k, s => by simp [fold_sty, super_fold_sty]
  | .ty_uint k, s => by simp [fold_sty, super_fold_sty]
  | .ty_float k, s => by simp [fold_sty, super_fold_sty]
  | .ty_err, s => by simp [fold_sty, super_fold_sty]
  | .ty_infer v, s => by simp [fold_sty, super_fold_sty]
  | .ty_param sp i did, s => by
    simp [fold_sty, super_fold_sty]

theorem dflt_mt (σ : Type) : (tm : Mt) → (s : σ) →
    fold_mt (defaultFolder σ) tm s = (tm, s)
  | .mk t m, s => by
    simp [fold_mt, super_fold_mt, dflt_ty σ t s]

theorem dflt_substs (σ : Type) : (sub : Substs) → (s : σ) →
    fold_substs (defaultFolder σ) sub s = (sub, s)
  | .mk tys .ErasedRegions, s => by
    simp [fold_substs, super_fold_substs,
      dflt_ty_vpps σ tys s]
  | .mk tys (.NonerasedRegions rs), s => by
    simp [fold_substs, super_fold_substs, vec_fold_with_id,
      vec_per_param_space_fold_with, dflt_ty_vpps σ tys s]

theorem dflt_sig (σ : Type) : (g : FnSig) → (s : σ) →
    fold_sig (defaultFolder σ) g s = (g, s)
  | .mk bid ins out v, s => by
    simp [fold_sig, super_fold_sig, dflt_ty_list σ ins s,
      dflt_ty σ out s]

theorem dflt_bare_fn (σ : Type) : (fy : BareFnTy) → (s : σ) →
    fold_bare_fn_ty (defaultFolder σ) fy s = (fy, s)
  | .mk st abi g, s => by
    simp [fold_bare_fn_ty, super_fold_bare_fn_ty,
      dflt_sig σ g s]

theorem dflt_closure (σ : Type) : (fy : ClosureTy) → (s : σ) →
    fold_closure_ty (defaultFolder σ) fy s = (fy, s)
  | .mk st once store b g abi, s => by
    simp [fold_closure_ty, super_fold_closure_ty,
      dflt_trait_store, dflt_sig σ g s, dflt_existential_bounds]

theorem dflt_ty_list (σ : Type) : (l : TyList) → (s : σ) →
    fold_ty_list (defaultFolder σ) l s = (l, s)
  | .nil, s => by simp [fold_ty_list]
  | .cons t ts, s => by
    simp [fold_ty_list, dflt_ty σ t s, dflt_ty_list σ ts s]

theorem dflt_ty_vpps (σ : Type) : (v : TyVpps) → (s : σ) →
    fold_ty_vpps (defaultFolder σ) v s = (v, s)
  | .mk a b c, s => by
    simp [fold_ty_vpps, dflt_ty_list σ a s, dflt_ty_list σ b s,
      dflt_ty_list σ c s]

end

/-- Default folding of a region is the identity (the `fold_region` hook's
default). -/
theorem dflt_region {σ : Type} (r : Region) (s : σ) :
    (defaultFolder σ).fold_region r s = (r, s) := rfl

/-- Default folding of a trait reference is the identity. -/
theorem dflt_trait_ref {σ : Type} (t : TraitRef) (s : σ) :
    fold_trait_ref (defaultFolder σ) t s = (t, s) := by
  simp [fold_trait_ref, super_fold_trait_ref,
    dflt_substs σ t.substs s]

/-- Default folding of an `ItemSubsts` is the identity. -/
theorem dflt_item_substs {σ : Type} (i : ItemSubsts) (s : σ) :
    ItemSubsts.fold_with (defaultFolder σ) i s = (i, s) := by
  simp [ItemSubsts.fold_with, dflt_substs σ i.substs s]

/-- Default folding of an obligation is the identity. -/
theorem dflt_obligation {σ : Type} (o : Obligation) (s : σ) :
    fold_obligation (defaultFolder σ) o s = (o, s) := by
  simp [fold_obligation, super_fold_obligation, rc_fold_with,
    dflt_trait_ref]

/-- Default folding of an unsize kind is the identity. -/
theorem dflt_unsize_kind {σ : Type} :
    ∀ (k : UnsizeKind) (s : σ),
      unsize_kind_fold_with (defaultFolder σ) k s = (k, s)
  | .UnsizeLength n, s => by simp [unsize_kind_fold_with]
  | .UnsizeStruct k n, s => by
    simp [unsize_kind_fold_with, dflt_unsize_kind k s]
  | .UnsizeVtable b did sub t, s => by
    simp [unsize_kind_fold_with, dflt_existential_bounds,
      dflt_substs σ sub s, dflt_ty σ t s]

/-- Default structural folding of an autoref chain is the identity. -/
theorem dflt_super_autoref {σ : Type} :
    ∀ (a : AutoRef) (s : σ),
      super_fold_autoref (defaultFolder σ) a s = (a, s)
  | .AutoPtr r m none, s => by
    simp [super_fold_autoref]
  | .AutoPtr r m (some a1), s => by
    simp [super_fold_autoref, dflt_super_autoref a1 s]
  | .AutoUnsafe m none, s => by simp [super_fold_autoref]
  | .AutoUnsafe m (some a1), s => by
    simp [super_fold_autoref, dflt_super_autoref a1 s]
  | .AutoUnsize k, s => by
    simp [super_fold_autoref, dflt_unsize_kind k s]
  | .AutoUnsizeUniq k, s => by
    simp [super_fold_autoref, dflt_unsize_kind k s]

/-- Default folding of an autoref chain is the identity. -/
theorem dflt_autoref {σ : Type} (a : AutoRef) (s : σ) :
    fold_autoref (defaultFolder σ) a s = (a, s) := by
  simp [fold_autoref, dflt_super_autoref a s]

/-- Region-only folds compose on the region component of a substitution. -/
theorem mapRegionsRegionSubsts_comp (g h : Region → Region)
    (rgs : RegionSubsts) :
    mapRegionsRegionSubsts g (mapRegionsRegionSubsts h rgs) =
      mapRegionsRegionSubsts (fun r => g (h r)) rgs := by
  cases rgs <;>
    simp [mapRegionsRegionSubsts, List.map_map, Function.comp]

/-- Region-only folds compose on trait stores. -/
theorem mapRegionsTraitStore_comp (g h : Region → Region)
    (ts : TraitStore) :
    mapRegionsTraitStore g (mapRegionsTraitStore h ts) =
      mapRegionsTraitStore (fun r => g (h r)) ts := by
  cases ts <;> simp

/-- Region-only folds compose on existential bounds. -/
theorem mapRegionsEB_comp (g h : Region → Region) (b : ExistentialBounds) :
    mapRegionsEB g (mapRegionsEB h b) =
      mapRegionsEB (fun r => g (h r)) b := by
  cases b; simp

mutual

theorem mapRegionsTy_comp (g h : Region → Region) : (t : Ty) →
    mapRegionsTy g (mapRegionsTy h t) = mapRegionsTy (fun r => g (h r)) t
  | .mk st => by simp [mapRegionsSty_comp g h st]

theorem mapRegionsSty_comp (g h : Region → Region) : (st : Sty) →
    mapRegionsSty g (mapRegionsSty h st) =
      mapRegionsSty (fun r => g (h r)) st
  | .ty_uniq t => by simp [mapRegionsTy_comp g h t]
  | .ty_ptr tm => by simp [mapRegionsMt_comp g h tm]
  | .ty_vec t sz => by simp [mapRegionsTy_comp g h t]
  | .ty_open t => by simp [mapRegionsTy_comp g h t]
  | .ty_enum did sub => by simp [mapRegionsSubsts_comp g h sub]
  | .ty_trait did sub b => by
    simp [mapRegionsSubsts_comp g h sub, mapRegionsEB_comp]
  | .ty_tup ts => by simp [mapRegionsTyList_comp g h ts]
  | .ty_bare_fn fy => by simp [mapRegionsBareFn_comp g h fy]
  | .ty_closure fy => by simp [mapRegionsClosure_comp g h fy]
  | .ty_rptr r tm => by simp [mapRegionsMt_comp g h tm]
  | .ty_struct did sub => by simp [mapRegionsSubsts_comp g h sub]
  | .ty_unboxed_closure did r => by simp
  | .ty_nil => by simp
  | .ty_bot => by simp
  | .ty_bool => by simp
  | .ty_char => by simp
  | .ty_str => by simp
  | .ty_int k => by simp
  | .ty_uint k => by simp
  | .ty_float k => by simp
  | .ty_err => by simp
  | .ty_infer v => by simp
  | .ty_param sp i did => by simp

theorem mapRegionsMt_comp (g h : Region → Region) : (tm : Mt) →
    mapRegionsMt g (mapRegionsMt h tm) = mapRegionsMt (fun r => g (h r)) tm
  | .mk t m => by simp [mapRegionsTy_comp g h t]

theorem mapRegionsSig_comp (g h : Region → Region) : (sg : FnSig) →
    mapRegionsSig g (mapRegionsSig h sg) =
      mapRegionsSig (fun r => g (h r)) sg
  | .mk b ins out v => by
    simp [mapRegionsTyList_comp g h ins, mapRegionsTy_comp g h out]

theorem mapRegionsBareFn_comp (g h : Region → Region) : (fy : BareFnTy) →
    mapRegionsBareFn g (mapRegionsBareFn h fy) =
      mapRegionsBareFn (fun r => g (h r)) fy
  | .mk st abi sg => by simp [mapRegionsSig_comp g h sg]

theorem mapRegionsClosure_comp (g h : Region → Region) : (fy : ClosureTy) →
    mapRegionsClosure g (mapRegionsClosure h fy) =
      mapRegionsClosure (fun r => g (h r)) fy
  | .mk st once store b sg abi => by
    simp [mapRegionsSig_comp g h sg, mapRegionsTraitStore_comp,
      mapRegionsEB_comp]

theorem mapRegionsSubsts_comp (g h : Region → Region) : (sub : Substs) →
    mapRegionsSubsts g (mapRegionsSubsts h sub) =
      mapRegionsSubsts (fun r => g (h r)) sub
  | .mk tys rgs => by
    simp [mapRegionsTyVpps_comp g h tys, mapRegionsRegionSubsts_comp]

theorem mapRegionsTyVpps_comp (g h : Region → Region) : (v : TyVpps) →
    mapRegionsTyVpps g (mapRegionsTyVpps h v) =
      mapRegionsTyVpps (fun r => g (h r)) v
  | .mk a b c => by
    simp [mapRegionsTyList_comp g h a, mapRegionsTyList_comp g h b,
      mapRegionsTyList_comp g h c]

theorem mapRegionsTyList_comp (g h : Region → Region) : (l : TyList) →
    mapRegionsTyList g (mapRegionsTyList h l) =
      mapRegionsTyList (fun r => g (h r)) l
  | .nil => by simp
  | .cons t ts => by
    simp [mapRegionsTy_comp g h t, mapRegionsTyList_comp g h ts]

end

/-- A region-only fold maps the regions of a trait store. -/
theorem traitStoreRegions_map (g : Region → Region) (ts : TraitStore) :
    (mapRegionsTraitStore g ts).regionList = ts.regionList.map g := by
  cases ts <;> simp [TraitStore.regionList]

/-- A region-only fold maps the regions of the region component of a
substitution. -/
theorem regionSubstsRegions_map (g : Region → Region) (rgs : RegionSubsts) :
    (mapRegionsRegionSubsts g rgs).regionList = rgs.regionList.map g := by
  cases rgs <;> simp [RegionSubsts.regionList, mapRegionsRegionSubsts]

/-- A region-only fold maps the region bound of existential bounds. -/
theorem ebRegion_map (g : Region → Region) (b : ExistentialBounds) :
    (mapRegionsEB g b).region_bound = g b.region_bound := by
  cases b; simp

mutual

theorem tyRegions_map (g : Region → Region) : (t : Ty) →
    tyRegions (mapRegionsTy g t) = (tyRegions t).map g
  | .mk st => by simp [tyRegions, styRegions_map g st]

theorem styRegions_map (g : Region → Region) : (st : Sty) →
    styRegions (mapRegionsSty g st) = (styRegions st).map g
  | .ty_uniq t => by simp [styRegions, tyRegions_map g t]
  | .ty_ptr tm => by simp [styRegions, mtRegions_map g tm]
  | .ty_vec t sz => by simp [styRegions, tyRegions_map g t]
  | .ty_open t => by simp [styRegions, tyRegions_map g t]
  | .ty_enum did sub => by simp [styRegions, substsRegions_map g sub]
  | .ty_trait did sub b => by
    simp [styRegions, substsRegions_map g sub, ebRegion_map]
  | .ty_tup ts => by simp [styRegions, tyListRegions_map g ts]
  | .ty_bare_fn fy => by simp [styRegions, bareFnRegions_map g fy]
  | .ty_closure fy => by simp [styRegions, closureRegions_map g fy]
  | .ty_rptr r tm => by simp [styRegions, mtRegions_map g tm]
  | .ty_struct did sub => by simp [styRegions, substsRegions_map g sub]
  | .ty_unboxed_closure did r => by simp [styRegions]
  | .ty_nil => by simp [styRegions]
  | .ty_bot => by simp [styRegions]
  | .ty_bool => by simp [styRegions]
  | .ty_char => by simp [styRegions]
  | .ty_str => by simp [styRegions]
  | .ty_int k => by simp [styRegions]
  | .ty_uint k => by simp [styRegions]
  | .ty_float k => by simp [styRegions]
  | .ty_err => by simp [styRegions]
  | .ty_infer v => by simp [styRegions]
  | .ty_param sp i did => by simp [styRegions]

theorem mtRegions_map (g : Region → Region) : (tm : Mt) →
    mtRegions (mapRegionsMt g tm) = (mtRegions tm).map g
  | .mk t m => by simp [mtRegions, tyRegions_map g t]

theorem sigRegions_map (g : Region → Region) : (sg : FnSig) →
    sigRegions (mapRegionsSig g sg) = (sigRegions sg).map g
  | .mk b ins out v => by
    simp [sigRegions, tyListRegions_map g ins, tyRegions_map g out]

theorem bareFnRegions_map (g : Region → Region) : (fy : BareFnTy) →
    bareFnRegions (mapRegionsBareFn g fy) = (bareFnRegions fy).map g
  | .mk st abi sg => by simp [bareFnRegions, sigRegions_map g sg]

theorem closureRegions_map (g : Region → Region) : (fy : ClosureTy) →
    closureRegions (mapRegionsClosure g fy) = (closureRegions fy).map g
  | .mk st once store b sg abi => by
    simp [closureRegions, sigRegions_map g sg, traitStoreRegions_map,
      ebRegion_map]

theorem substsRegions_map (g : Region → Region) : (sub : Substs) →
    substsRegions (mapRegionsSubsts g sub) = (substsRegions sub).map g
  | .mk tys rgs => by
    simp [substsRegions, tyVppsRegions_map g tys, regionSubstsRegions_map]

theorem tyVppsRegions_map (g : Region → Region) : (v : TyVpps) →
    tyVppsRegions (mapRegionsTyVpps g v) = (tyVppsRegions v).map g
  | .mk a b c => by
    simp [tyVppsRegions, tyListRegions_map g a, tyListRegions_map g b,
      tyListRegions_map g c]

theorem tyListRegions_map (g : Region → Region) : (l : TyList) →
    tyListRegions (mapRegionsTyList g l) = (tyListRegions l).map g
  | .nil => by simp [tyListRegions]
  | .cons t ts => by
    simp [tyListRegions, tyRegions_map g t, tyListRegions_map g ts]

end

/-- `erase_regions` on a type term is the region-only fold with the
eraser's region rewrite (definitional). -/
theorem eraseTy_eq_map (t : Ty) :
    eraseTy t = mapRegionsTy RegionEraser.fold_region t := rfl

theorem eraseSty_eq_map (st : Sty) :
    eraseSty st = mapRegionsSty RegionEraser.fold_region st := rfl

theorem eraseSig_eq_map (g : FnSig) :
    eraseSig g = mapRegionsSig RegionEraser.fold_region g := rfl

theorem eraseSubsts_eq_map (sub : Substs) :
    eraseSubsts sub = mapRegionsSubsts RegionEraser.fold_region sub := rfl

/-- The eraser's region rewrite is idempotent (static maps to static, and
bound regions are untouched). -/
theorem eraser_region_idem (r : Region) :
    RegionEraser.fold_region (RegionEraser.fold_region r) =
      RegionEraser.fold_region r := by
  cases r <;> rfl

/-- The eraser's region rewrite never produces a free or inferred region. -/
theorem eraser_region_not_free (r : Region) :
    (RegionEraser.fold_region r).isFree = false ∧
      (RegionEraser.fold_region r).isInfer = false := by
  cases r <;> simp [RegionEraser.fold_region, Region.isFree, Region.isInfer]

/-- Projections of `RegionFolder.general` (used by the state lemmas). -/
@[simp]
theorem rfolder_pre (fld_r : Region → Region) (fld_t : Ty → Ty) :
    (RegionFolder.general fld_r fld_t).fold_ty_pre =
      RegionFolder.fold_ty_enter := rfl

@[simp]
theorem rfolder_post (fld_r : Region → Region) (fld_t : Ty → Ty) :
    (RegionFolder.general fld_r fld_t).fold_ty_post =
      RegionFolder.fold_ty_exit fld_t := rfl

@[simp]
theorem rfolder_region (fld_r : Region → Region) (fld_t : Ty → Ty) :
    (RegionFolder.general fld_r fld_t).fold_region =
      RegionFolder.fold_region fld_r := rfl

@[simp]
theorem rfolder_sty_o (fld_r : Region → Region) (fld_t : Ty → Ty) :
    (RegionFolder.general fld_r fld_t).fold_sty_override = none := rfl

@[simp]
theorem rfolder_mt_o (fld_r : Region → Region) (fld_t : Ty → Ty) :
    (RegionFolder.general fld_r fld_t).fold_mt_override = none := rfl

@[simp]
theorem rfolder_substs_o (fld_r : Region → Region) (fld_t : Ty → Ty) :
    (RegionFolder.general fld_r fld_t).fold_substs_override = none := rfl

@[simp]
theorem rfolder_sig_o (fld_r : Region → Region) (fld_t : Ty → Ty) :
    (RegionFolder.general fld_r fld_t).fold_sig_override = none := rfl

@[simp]
theorem rfolder_bare_fn_o (fld_r : Region → Region) (fld_t : Ty → Ty) :
    (RegionFolder.general fld_r fld_t).fold_bare_fn_ty_override = none := rfl

@[simp]
theorem rfolder_closure_o (fld_r : Region → Region) (fld_t : Ty → Ty) :
    (RegionFolder.general fld_r fld_t).fold_closure_ty_override = none := rfl

@[simp]
theorem rfolder_trait_store_o (fld_r : Region → Region) (fld_t : Ty → Ty) :
    (RegionFolder.general fld_r fld_t).fold_trait_store_override =
      none := rfl

@[simp]
theorem rfolder_existential_bounds_o (fld_r : Region → Region)
    (fld_t : Ty → Ty) :
    (RegionFolder.general fld_r fld_t).fold_existential_bounds_override =
      none := rfl

/-- The region hook of a region folder never changes the binder stack. -/
@[simp]
theorem regionFolder_fold_region_snd (fld_r : Region → Region) (r : Region)
    (s : List Nat) : (RegionFolder.fold_region fld_r r s).2 = s := rfl

/-- Folding a sequence of regions through the region folder's hook never
changes the binder stack. -/
theorem vec_fold_region_snd (fld_r : Region → Region) (l : List Region)
    (s : List Nat) :
    (vec_fold_with (fun rg s1 => RegionFolder.fold_region fld_r rg s1)
      l s).2 = s := by
  induction l generalizing s with
  | nil => simp [vec_fold_with]
  | cons a ts ih => simp [vec_fold_with, ih]

theorem vpps_fold_region_snd (fld_r : Region → Region)
    (v : VecPerParamSpace Region) (s : List Nat) :
    (vec_per_param_space_fold_with
      (fun rg s1 => RegionFolder.fold_region fld_r rg s1) v s).2 = s := by
  simp [vec_per_param_space_fold_with, vec_fold_region_snd]

/-- A region folder's trait-store fold never changes the binder stack. -/
theorem rf_trait_store_snd (fld_r : Region → Region) (fld_t : Ty → Ty)
    (ts : TraitStore) (s : List Nat) :
    (fold_trait_store (RegionFolder.general fld_r fld_t) ts s).2 = s := by
  cases ts <;> simp [fold_trait_store, super_fold_trait_store]

/-- A region folder's existential-bounds fold never changes the binder
stack. -/
theorem rf_existential_bounds_snd (fld_r : Region → Region) (fld_t : Ty → Ty)
    (b : ExistentialBounds) (s : List Nat) :
    (fold_existential_bounds (RegionFolder.general fld_r fld_t) b s).2 =
      s := by
  simp [fold_existential_bounds, super_fold_existential_bounds]

/-- Pushing the binder id on entry and popping it on exit restores the
stack. -/
theorem rf_enter_exit (fld_t : Ty → Ty) (t t1 : Ty) (s : List Nat) :
    (RegionFolder.fold_ty_exit fld_t t t1
      (RegionFolder.fold_ty_enter t s)).2 = s := by
  cases hopt : opt_binder_id_of_function t <;>
    simp [RegionFolder.fold_ty_enter, RegionFolder.fold_ty_exit, hopt]

mutual

theorem rf_ty_snd (fld_r : Region → Region) (fld_t : Ty → Ty) : (t : Ty) →
    ∀ s, (fold_ty (RegionFolder.general fld_r fld_t) t s).2 = s
  | .mk st => by
    intro s
    simp [fold_ty, super_fold_ty, rf_sty_snd fld_r fld_t st, rf_enter_exit]

theorem rf_sty_snd (fld_r : Region → Region) (fld_t : Ty → Ty) :
    (st : Sty) →
    ∀ s, (fold_sty (RegionFolder.general fld_r fld_t) st s).2 = s
  | .ty_uniq t => by
    intro s
    simp [fold_sty, super_fold_sty, rf_ty_snd fld_r fld_t t]
  | .ty_ptr tm => by
    intro s
    simp [fold_sty, super_fold_sty, rf_mt_snd fld_r fld_t tm]
  | .ty_vec t sz => by
    intro s
    simp [fold_sty, super_fold_sty, rf_ty_snd fld_r fld_t t]
  | .ty_open t => by
    intro s
    simp [fold_sty, super_fold_sty, rf_ty_snd fld_r fld_t t]
  | .ty_enum did sub => by
    intro s
    simp [fold_sty, super_fold_sty, rf_substs_snd fld_r fld_t sub]
  | .ty_trait did sub b => by
    intro s
    simp [fold_sty, super_fold_sty, rf_substs_snd fld_r fld_t sub,
      rf_existential_bounds_snd]
  | .ty_tup ts => by
    intro s
    simp [fold_sty, super_fold_sty, rf_ty_list_snd fld_r fld_t ts]
  | .ty_bare_fn fy => by
    intro s
    simp [fold_sty, super_fold_sty, rf_bare_fn_snd fld_r fld_t fy]
  | .ty_closure fy => by
    intro s
    simp [fold_sty, super_fold_sty, rf_closure_snd fld_r fld_t fy]
  | .ty_rptr r tm => by
    intro s
    simp [fold_sty, super_fold_sty, rf_mt_snd fld_r fld_t tm]
  | .ty_struct did sub => by
    intro s
    simp [fold_sty, super_fold_sty, rf_substs_snd fld_r fld_t sub]
  | .ty_unboxed_closure did r => by
    intro s
    simp [fold_sty, super_fold_sty]
  | .ty_nil => by intro s; simp [fold_sty, super_fold_sty]
  | .ty_bot => by intro s; simp [fold_sty, super_fold_sty]
  | .ty_bool => by intro s; simp [fold_sty, super_fold_sty]
  | .ty_char => by intro s; simp [fold_sty, super_fold_sty]
  | .ty_str => by intro s; simp [fold_sty, super_fold_sty]
  | .ty_int k => by intro s; simp [fold_sty, super_fold_sty]
  | .ty_uint k => by intro s; simp [fold_sty, super_fold_sty]
  | .ty_float k => by intro s; simp [fold_sty, super_fold_sty]
  | .ty_err => by intro s; simp [fold_sty, super_fold_sty]
  | .ty_infer v => by intro s; simp [fold_sty, super_fold_sty]
  | .ty_param sp i did => by intro s; simp [fold_sty, super_fold_sty]

theorem rf_mt_snd (fld_r : Region → Region) (fld_t : Ty → Ty) : (tm : Mt) →
    ∀ s, (fold_mt (RegionFolder.general fld_r fld_t) tm s).2 = s
  | .mk t m => by
    intro s
    simp [fold_mt, super_fold_mt, rf_ty_snd fld_r fld_t t]

theorem rf_substs_snd (fld_r : Region → Region) (fld_t : Ty → Ty) :
    (sub : Substs) →
    ∀ s, (fold_substs (RegionFolder.general fld_r fld_t) sub s).2 = s
  | .mk tys .ErasedRegions => by
    intro s
    simp [fold_substs, super_fold_substs, rf_ty_vpps_snd fld_r fld_t tys]
  | .mk tys (.NonerasedRegions rs) => by
    intro s
    simp [fold_substs, super_fold_substs, rf_ty_vpps_snd fld_r fld_t tys,
      vpps_fold_region_snd]

theorem rf_sig_snd (fld_r : Region → Region) (fld_t : Ty → Ty) :
    (g : FnSig) →
    ∀ s, (fold_sig (RegionFolder.general fld_r fld_t) g s).2 = s
  | .mk bid ins out v => by
    intro s
    simp [fold_sig, super_fold_sig, rf_ty_list_snd fld_r fld_t ins,
      rf_ty_snd fld_r fld_t out]

theorem rf_bare_fn_snd (fld_r : Region → Region) (fld_t : Ty → Ty) :
    (fy : BareFnTy) →
    ∀ s, (fold_bare_fn_ty (RegionFolder.general fld_r fld_t) fy s).2 = s
  | .mk st abi g => by
    intro s
    simp [fold_bare_fn_ty, super_fold_bare_fn_ty, rf_sig_snd fld_r fld_t g]

theorem rf_closure_snd (fld_r : Region → Region) (fld_t : Ty → Ty) :
    (fy : ClosureTy) →
    ∀ s, (fold_closure_ty (RegionFolder.general fld_r fld_t) fy s).2 = s
  | .mk st once store b g abi => by
    intro s
    simp [fold_closure_ty, super_fold_closure_ty, rf_trait_store_snd,
      rf_sig_snd fld_r fld_t g, rf_existential_bounds_snd]

theorem rf_ty_list_snd (fld_r : Region → Region) (fld_t : Ty → Ty) :
    (l : TyList) →
    ∀ s, (fold_ty_list (RegionFolder.general fld_r fld_t) l s).2 = s
  | .nil => by intro s; simp [fold_ty_list]
  | .cons t ts => by
    intro s
    simp [fold_ty_list, rf_ty_snd fld_r fld_t t,
      rf_ty_list_snd fld_r fld_t ts]

theorem rf_ty_vpps_snd (fld_r : Region → Region) (fld_t : Ty → Ty) :
    (v : TyVpps) →
    ∀ s, (fold_ty_vpps (RegionFolder.general fld_r fld_t) v s).2 = s
  | .mk a b c => by
    intro s
    simp [fold_ty_vpps, rf_ty_list_snd fld_r fld_t a,
      rf_ty_list_snd fld_r fld_t b, rf_ty_list_snd fld_r fld_t c]

end

/-- The region-forgetting skeleton of a type term: every region is replaced
by the fixed static region and everything else is kept, so two terms have
the same skeleton exactly when they agree on every non-region component. -/
def skeletonTy (t : Ty) : Ty :=
  mapRegionsTy (fun _ => .ReStatic) t

def skeletonSty (st : Sty) : Sty :=
  mapRegionsSty (fun _ => .ReStatic) st

def skeletonSig (g : FnSig) : FnSig :=
  mapRegionsSig (fun _ => .ReStatic) g

def skeletonSubsts (sub : Substs) : Substs :=
  mapRegionsSubsts (fun _ => .ReStatic) sub

/-- Claim C1: folding any foldable value (type term, sty, signature,
substitution, region, containers of foldables, trait references, autoref
chains, obligations, ...) with a folder all of whose hooks are left at
their structural defaults (including the default `fold_region`, which is
the identity) returns a value structurally equal to the input, whatever the
folder state. -/
theorem c1_default_fold_identity :
    ∀ (σ : Type) (s : σ),
      (∀ t : Ty, fold_ty (defaultFolder σ) t s = (t, s)) ∧
      (∀ st : Sty, fold_sty (defaultFolder σ) st s = (st, s)) ∧
      (∀ g : FnSig, fold_sig (defaultFolder σ) g s = (g, s)) ∧
      (∀ sub : Substs, fold_substs (defaultFolder σ) sub s = (sub, s)) ∧
      (∀ r : Region, (defaultFolder σ).fold_region r s = (r, s)) ∧
      (∀ tm : Mt, fold_mt (defaultFolder σ) tm s = (tm, s)) ∧
      (∀ fy : BareFnTy, fold_bare_fn_ty (defaultFolder σ) fy s = (fy, s)) ∧
      (∀ fy : ClosureTy, fold_closure_ty (defaultFolder σ) fy s = (fy, s)) ∧
      (∀ ts : TraitStore, fold_trait_store (defaultFolder σ) ts s = (ts, s)) ∧
      (∀ b : ExistentialBounds,
        fold_existential_bounds (defaultFolder σ) b s = (b, s)) ∧
      (∀ tr : TraitRef, fold_trait_ref (defaultFolder σ) tr s = (tr, s)) ∧
      (∀ i : ItemSubsts,
        ItemSubsts.fold_with (defaultFolder σ) i s = (i, s)) ∧
      (∀ a : AutoRef, fold_autoref (defaultFolder σ) a s = (a, s)) ∧
      (∀ o : Obligation, fold_obligation (defaultFolder σ) o s = (o, s)) ∧
      (∀ l : TyList, fold_ty_list (defaultFolder σ) l s = (l, s)) ∧
      (∀ v : TyVpps, fold_ty_vpps (defaultFolder σ) v s = (v, s)) ∧
      (∀ ot : Option Ty,
        option_fold_with (fun t s1 => fold_ty (defaultFolder σ) t s1) ot s =
          (ot, s)) := by
  intro σ s
  refine ⟨fun t => dflt_ty σ t s, fun st => dflt_sty σ st s,
    fun g => dflt_sig σ g s, fun sub => dflt_substs σ sub s,
    fun r => rfl, fun tm => dflt_mt σ tm s, fun fy => dflt_bare_fn σ fy s,
    fun fy => dflt_closure σ fy s, fun ts => dflt_trait_store ts s,
    fun b => dflt_existential_bounds b s, fun tr => dflt_trait_ref tr s,
    fun i => dflt_item_substs i s, fun a => dflt_autoref a s,
    fun o => dflt_obligation o s, fun l => dflt_ty_list σ l s,
    fun v => dflt_ty_vpps σ v s, fun ot => ?_⟩
  cases ot with
  | none => simp [option_fold_with]
  | some t => simp [option_fold_with, dflt_ty σ t s]

/-- Claim C4: the region eraser maps a region to itself exactly when it is
late-bound or early-bound and to the canonical static region otherwise,
and consequently the erasure of any type term contains no region tagged
free or inferred. -/
theorem c4_region_erasure_rule :
    (∀ r : Region,
      RegionEraser.fold_region r = if r.isBound then r else .ReStatic) ∧
      ∀ t : Ty,
        (tyRegions (eraseTy t)).all
          (fun r => !r.isFree && !r.isInfer) = true := by
  constructor
  · intro r
    cases r <;> simp [RegionEraser.fold_region, Region.isBound]
  · intro t
    rw [eraseTy_eq_map, tyRegions_map, List.all_map, List.all_eq_true]
    intro r _
    obtain ⟨h1, h2⟩ := eraser_region_not_free r
    simp [Function.comp, h1, h2]

/-- Claim C5: region erasure is idempotent on every foldable value (stated
for type terms, sty values, signatures and substitutions). -/
theorem c5_erasure_idempotent :
    (∀ t : Ty, eraseTy (eraseTy t) = eraseTy t) ∧
      (∀ st : Sty, eraseSty (eraseSty st) = eraseSty st) ∧
      (∀ g : FnSig, eraseSig (eraseSig g) = eraseSig g) ∧
      (∀ sub : Substs, eraseSubsts (eraseSubsts sub) = eraseSubsts sub) := by
  have hfun : (fun r => RegionEraser.fold_region (RegionEraser.fold_region r)) =
      RegionEraser.fold_region := funext eraser_region_idem
  refine ⟨fun t => ?_, fun st => ?_, fun g => ?_, fun sub => ?_⟩
  · rw [eraseTy_eq_map, eraseTy_eq_map, mapRegionsTy_comp, hfun]
  · rw [eraseSty_eq_map, eraseSty_eq_map, mapRegionsSty_comp, hfun]
  · rw [eraseSig_eq_map, eraseSig_eq_map, mapRegionsSig_comp, hfun]
  · rw [eraseSubsts_eq_map, eraseSubsts_eq_map, mapRegionsSubsts_comp, hfun]

/-- Claim C6: for every type and every region folder, the
`within_binder_ids` stack after `fold_ty` equals its value before the call
(the binder id pushed on entering a bare-function or closure type is popped
on every exit path). -/
theorem c6_binder_stack_balance :
    ∀ (fld_r : Region → Region) (fld_t : Ty → Ty) (t : Ty) (s : List Nat),
      (fold_ty (RegionFolder.general fld_r fld_t) t s).2 = s :=
  fun fld_r fld_t t s => rf_ty_snd fld_r fld_t t s

/-- Claim C8: for every foldable value, `subst` equals `subst_spanned` with
no span, and `subst_spanned` performs exactly one fold with a freshly
constructed substitution folder built from the context, the substitution
and the optional span. -/
theorem c8_subst_entry_points :
    ∀ (A : Type) (F : Foldable A) (tcx : Ctxt) (substs : Substs)
      (span : Option Span) (v : A),
      F.subst tcx substs v = F.subst_spanned tcx substs none v ∧
        F.subst_spanned tcx substs span v =
          (F.fold_with (SubstFolder.new tcx substs span) v ()).1 :=
  fun _ _ _ _ _ _ => ⟨rfl, rfl⟩

/-- Claim C9: region erasure changes only region components — the skeleton
(everything except regions) of the erasure of a value equals the skeleton
of the value (stated for type terms, sty values, signatures and
substitutions). -/
theorem c9_erasure_frame :
    (∀ t : Ty, skeletonTy (eraseTy t) = skeletonTy t) ∧
      (∀ st : Sty, skeletonSty (eraseSty st) = skeletonSty st) ∧
      (∀ g : FnSig, skeletonSig (eraseSig g) = skeletonSig g) ∧
      (∀ sub : Substs,
        skeletonSubsts (eraseSubsts sub) = skeletonSubsts sub) := by
  refine ⟨fun t => ?_, fun st => ?_, fun g => ?_, fun sub => ?_⟩
  · rw [eraseTy_eq_map]
    exact mapRegionsTy_comp (fun _ => .ReStatic) RegionEraser.fold_region t
  · rw [eraseSty_eq_map]
    exact mapRegionsSty_comp (fun _ => .ReStatic) RegionEraser.fold_region st
  · rw [eraseSig_eq_map]
    exact mapRegionsSig_comp (fun _ => .ReStatic) RegionEraser.fold_region g
  · rw [eraseSubsts_eq_map]
    exact mapRegionsSubsts_comp (fun _ => .ReStatic)
      RegionEraser.fold_region sub

/-- Claim C10: builtin-bound sets are never transformed by any fold:
`BuiltinBounds::fold_with` is the identity for every folder, and
`super_fold_existential_bounds` copies the `builtin_bounds` field unchanged
for every folder. -/
theorem c10_builtin_bounds_frame :
    (∀ (σ : Type) (f : Folder σ) (b : BuiltinBounds) (s : σ),
      BuiltinBounds.fold_with f b s = (b, s)) ∧
      ∀ (σ : Type) (f : Folder σ) (eb : ExistentialBounds) (s : σ),
        (super_fold_existential_bounds f eb s).1.builtin_bounds =
          eb.builtin_bounds :=
  ⟨fun _ _ _ _ => rfl, fun _ _ _ _ => rfl⟩

/-- Folding a sequence preserves its length. -/
theorem vec_fold_with_length {α σ : Type} (f : α → σ → α × σ) (l : List α)
    (s : σ) : (vec_fold_with f l s).1.length = l.length := by
  induction l generalizing s with
  | nil => simp [vec_fold_with]
  | cons a ts ih => simp [vec_fold_with, ih]

/-- The i-th element of a folded sequence is the fold of the i-th input
element, performed in the folder state reached after folding the elements
before it. -/
theorem vec_fold_with_get? {α σ : Type} (f : α → σ → α × σ) (l : List α)
    (s : σ) (i : Nat) :
    (vec_fold_with f l s).1.get? i =
      (l.get? i).map (fun a => (f a (vec_fold_states f (l.take i) s)).1) := by
  induction l generalizing s i with
  | nil => simp [vec_fold_with]
  | cons a ts ih =>
    cases i with
    | zero => simp [vec_fold_with, vec_fold_states]
    | succ j =>
      have h := ih (f a s).2 j
      simp only [List.get?_eq_getElem?] at h
      simp [vec_fold_with, vec_fold_states, h]

/-- Claim C7: container lifting.  For every element fold (the `fold_with`
of the element type applied to an arbitrary folder): an `Option` folds the
contained value if present and `none` maps to `none`; a `Vec`/`OwnedSlice`
folds to a sequence of the same length whose i-th element is the fold of
the i-th input element (in the threaded folder state); an `Rc` folds its
pointee; a `VecPerParamSpace` folds each element within its space,
preserving the per-space partition; and empty or absent containers are
their own fixed points. -/
theorem c7_container_lifting :
    ∀ (α σ : Type) (f : α → σ → α × σ) (s : σ),
      (option_fold_with f none s = (none, s)) ∧
      (∀ a : α,
        option_fold_with f (some a) s = (some (f a s).1, (f a s).2)) ∧
      (∀ l : List α, (vec_fold_with f l s).1.length = l.length) ∧
      (∀ (l : List α) (i : Nat),
        (vec_fold_with f l s).1.get? i =
          (l.get? i).map
            (fun a => (f a (vec_fold_states f (l.take i) s)).1)) ∧
      (∀ x : Rc α, rc_fold_with f x s = (⟨(f x.val s).1⟩, (f x.val s).2)) ∧
      (∀ v : VecPerParamSpace α,
        (vec_per_param_space_fold_with f v s).1.types =
            (vec_fold_with f v.types s).1 ∧
          (vec_per_param_space_fold_with f v s).1.selfs =
            (vec_fold_with f v.selfs (vec_fold_with f v.types s).2).1 ∧
          (vec_per_param_space_fold_with f v s).1.fns =
            (vec_fold_with f v.fns
              (vec_fold_with f v.selfs (vec_fold_with f v.types s).2).2).1) ∧
      (vec_fold_with f ([] : List α) s = ([], s)) ∧
      (vec_per_param_space_fold_with f ⟨[], [], []⟩ s = (⟨[], [], []⟩, s)) := by
  intro α σ f s
  refine ⟨rfl, fun a => rfl, fun l => vec_fold_with_length f l s,
    fun l i => vec_fold_with_get? f l s i, fun x => rfl,
    fun v => ⟨rfl, rfl, rfl⟩, rfl, ?_⟩
  simp [vec_per_param_space_fold_with, vec_fold_with]

/-- A folder that overrides `fold_item_substs` and `fold_autoref` with
recognizable constant results, to probe whether `fold_with` really goes
through those hooks. -/
def dispatchProbeFolder : Folder Unit :=
  { fold_item_substs_override := some (fun _ s =>
      (⟨Substs.mk (TyVpps.mk (.cons (Ty.mk .ty_bool) .nil) .nil .nil)
        .ErasedRegions⟩, s)),
    fold_autoref_override := some (fun _ s =>
      (.AutoUnsize (.UnsizeLength 0), s)) }

/-- An `ItemSubsts` around the empty substitution. -/
def emptyItemSubsts : ItemSubsts :=
  ⟨Substs.mk (TyVpps.mk .nil .nil .nil) .ErasedRegions⟩

/-- Claim C3 is false as stated: `ItemSubsts::fold_with` does not invoke
the `fold_item_substs` hook (it folds its field inline), and a nested
`AutoRef` is not folded through the `fold_autoref` hook (it is folded by
direct recursion on `super_fold_autoref`); both are witnessed by a folder
that overrides those hooks with constants. -/
theorem c3_counterexample :
    ItemSubsts.fold_with dispatchProbeFolder emptyItemSubsts () ≠
        fold_item_substs dispatchProbeFolder emptyItemSubsts () ∧
      super_fold_autoref dispatchProbeFolder
          (.AutoPtr .ReStatic .MutImmutable
            (some (.AutoUnsafe .MutImmutable none))) () ≠
        (.AutoPtr .ReStatic .MutImmutable
          (some (fold_autoref dispatchProbeFolder
            (.AutoUnsafe .MutImmutable none) ()).1), ()) := by
  constructor
  · have hL : ItemSubsts.fold_with dispatchProbeFolder emptyItemSubsts () =
        (emptyItemSubsts, ()) := by
      simp [ItemSubsts.fold_with, emptyItemSubsts, fold_substs,
        super_fold_substs, fold_ty_vpps, fold_ty_list, dispatchProbeFolder]
    have hR : fold_item_substs dispatchProbeFolder emptyItemSubsts () =
        (⟨Substs.mk (TyVpps.mk (.cons (Ty.mk .ty_bool) .nil) .nil .nil)
          .ErasedRegions⟩, ()) := rfl
    rw [hL, hR]
    intro h
    simp [emptyItemSubsts] at h
  · have hEq : super_fold_autoref dispatchProbeFolder
        (.AutoPtr .ReStatic .MutImmutable
          (some (.AutoUnsafe .MutImmutable none))) () =
        (.AutoPtr .ReStatic .MutImmutable
          (some (.AutoUnsafe .MutImmutable none)), ()) := by
      simp [super_fold_autoref, dispatchProbeFolder]
    have hHook : (fold_autoref dispatchProbeFolder
        (.AutoUnsafe .MutImmutable none) ()).1 =
        .AutoUnsize (.UnsizeLength 0) := rfl
    rw [hEq, hHook]
    intro h
    simp at h

/-- Claim C3 (amended): for every folder, each node kind with a hook
dispatches its `fold_with` to exactly that hook — with two exceptions
forced by the source: `ItemSubsts::fold_with` folds its `substs` field
inline and never invokes `fold_item_substs` (even though that hook exists,
with a structural default), and `super_fold_autoref` folds an `AutoRef`
nested inside another `AutoRef` by direct recursion on itself, bypassing
the `fold_autoref` hook. -/
theorem c3_dispatch_amended :
    (∀ (σ : Type) (f : Folder σ) (t : Ty) (s : σ),
      Ty.fold_with f t s = fold_ty f t s) ∧
    (∀ (σ : Type) (f : Folder σ) (st : Sty) (s : σ),
      Sty.fold_with f st s = fold_sty f st s) ∧
    (∀ (σ : Type) (f : Folder σ) (tm : Mt) (s : σ),
      Mt.fold_with f tm s = fold_mt f tm s) ∧
    (∀ (σ : Type) (f : Folder σ) (g : FnSig) (s : σ),
      FnSig.fold_with f g s = fold_sig f g s) ∧
    (∀ (σ : Type) (f : Folder σ) (fy : BareFnTy) (s : σ),
      BareFnTy.fold_with f fy s = fold_bare_fn_ty f fy s) ∧
    (∀ (σ : Type) (f : Folder σ) (fy : ClosureTy) (s : σ),
      ClosureTy.fold_with f fy s = fold_closure_ty f fy s) ∧
    (∀ (σ : Type) (f : Folder σ) (sub : Substs) (s : σ),
      Substs.fold_with f sub s = fold_substs f sub s) ∧
    (∀ (σ : Type) (f : Folder σ) (r : Region) (s : σ),
      Region.fold_with f r s = f.fold_region r s) ∧
    (∀ (σ : Type) (f : Folder σ) (ts : TraitStore) (s : σ),
      TraitStore.fold_with f ts s = fold_trait_store f ts s) ∧
    (∀ (σ : Type) (f : Folder σ) (b : ExistentialBounds) (s : σ),
      ExistentialBounds.fold_with f b s = fold_existential_bounds f b s) ∧
    (∀ (σ : Type) (f : Folder σ) (tr : TraitRef) (s : σ),
      TraitRef.fold_with f tr s = fold_trait_ref f tr s) ∧
    (∀ (σ : Type) (f : Folder σ) (a : AutoRef) (s : σ),
      AutoRef.fold_with f a s = fold_autoref f a s) ∧
    (∀ (σ : Type) (f : Folder σ) (o : Obligation) (s : σ),
      Obligation.fold_with f o s = fold_obligation f o s) ∧
    (∀ (σ : Type) (f : Folder σ) (i : ItemSubsts) (s : σ),
      ItemSubsts.fold_with f i s =
        (⟨(fold_substs f i.substs s).1⟩, (fold_substs f i.substs s).2)) ∧
    (∀ (σ : Type) (f : Folder σ) (r : Region) (m : Mutability) (a : AutoRef)
      (s : σ),
      super_fold_autoref f (.AutoPtr r m (some a)) s =
        (.AutoPtr (f.fold_region r s).1 m
          (some (super_fold_autoref f a (f.fold_region r s).2).1),
         (super_fold_autoref f a (f.fold_region r s).2).2)) ∧
    (∀ (σ : Type) (f : Folder σ) (m : Mutability) (a : AutoRef) (s : σ),
      super_fold_autoref f (.AutoUnsafe m (some a)) s =
        (.AutoUnsafe m (some (super_fold_autoref f a s).1),
         (super_fold_autoref f a s).2)) := by
  refine ⟨fun _ _ _ _ => rfl, fun _ _ _ _ => rfl, fun _ _ _ _ => rfl,
    fun _ _ _ _ => rfl, fun _ _ _ _ => rfl, fun _ _ _ _ => rfl,
    fun _ _ _ _ => rfl, fun _ _ _ _ => rfl, fun _ _ _ _ => rfl,
    fun _ _ _ _ => rfl, fun _ _ _ _ => rfl, fun _ _ _ _ => rfl,
    fun _ _ _ _ => rfl, fun _ _ _ _ => rfl, fun σ f r m a s => ?_,
    fun σ f m a s => ?_⟩
  · simp [super_fold_autoref]
  · simp [super_fold_autoref]

/-- Claim C2: folding a composite type with a `RegionFolder` whose region
callback rewrites every region it receives to a fixed marker leaves every
late-bound region tagged with the enclosed signature's binder id unchanged,
and rewrites every free region — both the free region outside the function
type and a free region inside its signature.  Stated for a composite
(tuple) type containing a bare-function type, and for one containing a
closure type (whose store and bound regions, being outside the signature's
binder, are also rewritten). -/
theorem c2_bound_free_region_separation
    (bid br br2 sc nm sc2 nm2 fs abi : Nat) (marker : Region)
    (bb : BuiltinBounds) :
    (fold_ty (RegionFolder.regions (fun _ => marker))
        (Ty.mk (.ty_tup
          (.cons (Ty.mk (.ty_rptr (.ReFree sc nm)
            (.mk (Ty.mk .ty_bool) .MutImmutable)))
          (.cons (Ty.mk (.ty_bare_fn (.mk fs abi (.mk bid
            (.cons (Ty.mk (.ty_rptr (.ReLateBound bid br)
              (.mk (Ty.mk .ty_bool) .MutImmutable)))
            (.cons (Ty.mk (.ty_rptr (.ReFree sc2 nm2)
              (.mk (Ty.mk .ty_bool) .MutImmutable)))
            .nil))
            (Ty.mk (.ty_rptr (.ReLateBound bid br2)
              (.mk (Ty.mk .ty_nil) .MutImmutable)))
            false))))
          .nil)))) []).1 =
      Ty.mk (.ty_tup
        (.cons (Ty.mk (.ty_rptr marker
          (.mk (Ty.mk .ty_bool) .MutImmutable)))
        (.cons (Ty.mk (.ty_bare_fn (.mk fs abi (.mk bid
          (.cons (Ty.mk (.ty_rptr (.ReLateBound bid br)
            (.mk (Ty.mk .ty_bool) .MutImmutable)))
          (.cons (Ty.mk (.ty_rptr marker
            (.mk (Ty.mk .ty_bool) .MutImmutable)))
          .nil))
          (Ty.mk (.ty_rptr (.ReLateBound bid br2)
            (.mk (Ty.mk .ty_nil) .MutImmutable)))
          false))))
        .nil))) ∧
    (fold_ty (RegionFolder.regions (fun _ => marker))
        (Ty.mk (.ty_tup
          (.cons (Ty.mk (.ty_rptr (.ReFree sc nm)
            (.mk (Ty.mk .ty_bool) .MutImmutable)))
          (.cons (Ty.mk (.ty_closure (.mk fs false
            (.RegionTraitStore (.ReFree sc2 nm2) .MutMutable)
            ⟨.ReFree sc nm, bb⟩
            (.mk bid
              (.cons (Ty.mk (.ty_rptr (.ReLateBound bid br)
                (.mk (Ty.mk .ty_bool) .MutImmutable))) .nil)
              (Ty.mk (.ty_rptr (.ReLateBound bid br2)
                (.mk (Ty.mk .ty_nil) .MutImmutable)))
              false)
            abi)))
          .nil)))) []).1 =
      Ty.mk (.ty_tup
        (.cons (Ty.mk (.ty_rptr marker
          (.mk (Ty.mk .ty_bool) .MutImmutable)))
        (.cons (Ty.mk (.ty_closure (.mk fs false
          (.RegionTraitStore marker .MutMutable)
          ⟨marker, bb⟩
          (.mk bid
            (.cons (Ty.mk (.ty_rptr (.ReLateBound bid br)
              (.mk (Ty.mk .ty_bool) .MutImmutable))) .nil)
            (Ty.mk (.ty_rptr (.ReLateBound bid br2)
              (.mk (Ty.mk .ty_nil) .MutImmutable)))
            false)
          abi)))
        .nil))) := by
  constructor <;>
    simp [fold_ty, super_fold_ty, fold_sty, super_fold_sty, fold_ty_list,
      fold_mt, super_fold_mt, fold_bare_fn_ty, super_fold_bare_fn_ty,
      fold_sig, super_fold_sig, fold_closure_ty, super_fold_closure_ty,
      fold_trait_store, super_fold_trait_store, fold_existential_bounds,
      super_fold_existential_bounds, RegionFolder.regions,
      RegionFolder.fold_ty_enter, RegionFolder.fold_ty_exit,
      RegionFolder.fold_region, opt_binder_id_of_function, Ty.sty,
      BareFnTy.sig, ClosureTy.sig, FnSig.binder_id, List.contains,
      List.elem]
